import Mathlib

/-!
Verification development for the find_my_home ingestion and comparison engine.

Python strings are modelled as `List Char`, SQL `DateTime` values as integers
counting days, prices (10,000 KRW units) as `Int`, and floating-point areas and
rates as `ℚ`.  Database tables are modelled as lists of rows in insertion
order; a SQLAlchemy `query(...).first()` is the first list element satisfying
the filter, and pending `add`s are visible to later queries in the same
session (autoflush semantics).  Regular-expression substitutions are embedded
as recursive functions that mirror the leftmost, non-overlapping matching of
Python `re.sub` on the character classes that occur in the data (newlines and
non-Korean non-ASCII letters are outside the modelled alphabet).
-/

namespace PyStr

/-- Characters treated as whitespace by `str.strip` and the `\s` class
(ASCII subset, which is what the crawled data contains). -/
def isPySpace (c : Char) : Bool :=
  c = ' ' || c = '\t' || c = '\n' || c = '\r' || c = '\x0b' || c = '\x0c'

/-- Model of `str.strip()`: drop leading and trailing whitespace. -/
def strip (s : List Char) : List Char :=
  ((s.dropWhile isPySpace).reverse.dropWhile isPySpace).reverse

/-- Model of `str.replace(",", "")`. -/
def removeCommas (s : List Char) : List Char :=
  s.filter (fun c => c ≠ ',')

/-- Model of `str.replace(" ", "")`. -/
def removeSpaces (s : List Char) : List Char :=
  s.filter (fun c => c ≠ ' ')

/-- Model of `str.lower()` on the modelled alphabet (ASCII letters are
lowercased; Korean syllables have no case). -/
def pyLower (s : List Char) : List Char :=
  s.map Char.toLower

/-- Numeric value of a list of decimal digits. -/
def digitsVal (s : List Char) : Nat :=
  s.foldl (fun acc c => acc * 10 + (c.toNat - '0'.toNat)) 0

/-- Model of Python `int(s)` on an already-stripped string: an optional sign
followed by at least one decimal digit; anything else raises `ValueError`,
modelled as `none`. -/
def pyParseInt (s : List Char) : Option Int :=
  match s with
  | [] => none
  | c :: rest =>
      if c = '-' then
        if rest ≠ [] ∧ rest.all Char.isDigit then some (-(digitsVal rest : Int))
        else none
      else if c = '+' then
        if rest ≠ [] ∧ rest.all Char.isDigit then some (digitsVal rest : Int)
        else none
      else
        if (c :: rest).all Char.isDigit then some (digitsVal (c :: rest) : Int)
        else none

/-- Substring test, the model of Python `a in b` on strings. -/
def infixOf (a b : List Char) : Bool :=
  decide (a <:+: b)

/-- Case-insensitive substring test, the model of SQL `ilike "%x%"`. -/
def iLikeSub (needle hay : List Char) : Bool :=
  infixOf (pyLower needle) (pyLower hay)

/-- Skip forward to just past the first `')'`, the tail used when the regex
`\([^)]*\)` matches at an opening parenthesis. -/
def afterClose : List Char → Option (List Char)
  | [] => none
  | c :: r => if c = ')' then some r else afterClose r

/-- Fuel-driven worker for `removeParens`; fuel at least the string length
makes the fuel-out branch unreachable. -/
def removeParensF : Nat → List Char → List Char
  | 0, s => s
  | fuel + 1, s =>
      match s with
      | [] => []
      | c :: rest =>
          if c = '(' then
            match afterClose rest with
            | some r => removeParensF fuel r
            | none => c :: removeParensF fuel rest
          else c :: removeParensF fuel rest

/-- Model of `re.sub(r"\([^)]*\)", "", s)`: delete every parenthesized group
(leftmost, non-overlapping; the group body cannot contain `')'`). -/
def removeParens (s : List Char) : List Char :=
  removeParensF s.length s

/-- Drop a suffix of the form `digits+ ++ pat` from `s` (the anchored regex
`\d+pat$`): `revPat` is `pat` reversed; working on the reversed string, match
`revPat`, then require and drop at least one digit. Returns the reversed
remainder on success. -/
def dropRevSuffix (revPat : List Char) (r : List Char) : Option (List Char) :=
  match revPat with
  | [] =>
      let ds := r.takeWhile Char.isDigit
      if ds = [] then none else some (r.dropWhile Char.isDigit)
  | p :: ps =>
      match r with
      | [] => none
      | c :: cs => if c = p then dropRevSuffix ps cs else none

/-- Model of `re.sub(r"\d+" ++ pat ++ "$", "", s)` for a literal `pat`:
if `s` ends with one-or-more digits followed by `pat`, remove that suffix
(the leftmost anchored match takes the maximal digit run). -/
def stripDigitsSuffix (pat : List Char) (s : List Char) : List Char :=
  match dropRevSuffix pat.reverse s.reverse with
  | some r => r.reverse
  | none => s

/-- Whether `s` ends with one-or-more digits followed by the literal `pat`. -/
def endsDigitsPat (pat : List Char) (s : List Char) : Bool :=
  (dropRevSuffix pat.reverse s.reverse).isSome

end PyStr

namespace KbClient

/-!
Embedding of `app/crawler/kb_price_client.py`: the module-level helpers
`_normalize_name` and `_calc_match_score` (source lines 881-921) and the data
used by the matching.
-/

open PyStr

/-- Python `\w` restricted to the alphabet of the crawled data: ASCII
alphanumerics, underscore, and Korean syllables/jamo.  The source class is
`[^\w가-힣]` (complemented), and `가-힣` is the syllable block U+AC00-U+D7A3,
already inside `\w`. -/
def isWordChar (c : Char) : Bool :=
  c.isAlphanum || c = '_' ||
    (0xAC00 ≤ c.toNat && c.toNat ≤ 0xD7A3) ||
    (0x1100 ≤ c.toNat && c.toNat ≤ 0x11FF) ||
    (0x3130 ≤ c.toNat && c.toNat ≤ 0x318F)

/-- Embedding of `_normalize_name` (kb_price_client.py:881):
remove parenthesized groups, a trailing `\d+단지` then a trailing `\d+차`,
lowercase, keep only word characters, and strip. -/
def _normalize_name (name : List Char) : List Char :=
  strip
    ((pyLower
        (stripDigitsSuffix ['차']
          (stripDigitsSuffix ['단', '지'] (removeParens name)))).filter
      isWordChar)

/-- Maximal runs of Korean-syllable characters of length at least 2, the model
of `re.findall(r"[가-힣]{2,}", s)`. -/
def isHangulSyllable (c : Char) : Bool :=
  0xAC00 ≤ c.toNat && c.toNat ≤ 0xD7A3

/-- Worker for `runsOf`: `cur` is the reversed run currently being read. -/
def runsOfAux (p : Char → Bool) : List Char → List Char → List (List Char)
  | [], cur => if cur = [] then [] else [cur.reverse]
  | c :: cs, cur =>
      if p c then runsOfAux p cs (c :: cur)
      else if cur = [] then runsOfAux p cs []
      else cur.reverse :: runsOfAux p cs []

/-- Collect the maximal runs of characters satisfying `p`. -/
def runsOf (p : Char → Bool) (s : List Char) : List (List Char) :=
  runsOfAux p s []

/-- Model of `re.findall(r"[가-힣]{2,}", s)` viewed as a set of words. -/
def koreanWords (s : List Char) : List (List Char) :=
  (runsOf isHangulSyllable s).filter (fun w => 2 ≤ w.length)

/-- Embedding of `_calc_match_score` (kb_price_client.py:893). -/
def _calc_match_score (target candidate : List Char) : Int :=
  if target = [] ∨ candidate = [] then 0
  else if target = candidate then 100
  else if infixOf target candidate || infixOf candidate target then 70
  else if (koreanWords target).any (fun w => (koreanWords candidate).contains w) then 40
  else 0

end KbClient

namespace NaverCrawl

/-!
Embedding of the parsing helpers of `app/crawler/naver_crawler.py`
(source lines 50-133).
-/

open PyStr

/-- Embedding of `_parse_price` (naver_crawler.py:50): price strings in
10,000-KRW units; `None`/empty input and `ValueError` yield `none`. -/
def _parse_price (priceStr : Option (List Char)) : Option Int :=
  match priceStr with
  | none => none
  | some s0 =>
      if s0 = [] then none
      else
        let s := removeCommas (strip s0)
        if '억' ∈ s then
          let part0 := s.takeWhile (fun c => c ≠ '억')
          let afterEok := (s.dropWhile (fun c => c ≠ '억')).drop 1
          let part1 := afterEok.takeWhile (fun c => c ≠ '억')
          match pyParseInt (strip part0) with
          | none => none
          | some eok =>
              if strip part1 = [] then some (eok * 10000)
              else
                match pyParseInt (strip part1) with
                | none => none
                | some rest => some (eok * 10000 + rest)
        else pyParseInt s

/-- Model of Python `float(s)` on the decimal fragment appearing in area
strings: optional sign, digits, optional decimal point. -/
def pyParseFloat (s : List Char) : Option ℚ :=
  let core := fun (t : List Char) (sign : ℚ) =>
    let ip := t.takeWhile Char.isDigit
    let rest := t.dropWhile Char.isDigit
    match rest with
    | [] => if ip = [] then none else some (sign * (digitsVal ip : ℚ))
    | '.' :: fp =>
        if fp.all Char.isDigit ∧ (ip ≠ [] ∨ fp ≠ []) then
          some (sign * ((digitsVal ip : ℚ) + (digitsVal fp : ℚ) / ((10 : ℚ) ^ fp.length)))
        else none
    | _ => none
  match s with
  | '-' :: t => core t (-1)
  | '+' :: t => core t 1
  | _ => core s 1

/-- Embedding of `_parse_area` (naver_crawler.py:78): strip a `㎡` suffix and
parse as float. -/
def _parse_area (areaStr : Option (List Char)) : Option ℚ :=
  match areaStr with
  | none => none
  | some s => pyParseFloat (strip (s.filter (fun c => c ≠ '㎡')))

/-- Embedding of `_parse_floor` (naver_crawler.py:88): numeric floors parse to
integers; the coarse tokens low/mid/high (저/중/고) and the empty string give
`none`. -/
def _parse_floor (floorStr : Option (List Char)) : Option Int :=
  match floorStr with
  | none => none
  | some fs =>
      let s := strip (fs.filter (fun c => c ≠ '층'))
      if s = ['저'] ∨ s = ['중'] ∨ s = ['고'] ∨ s = [] then none
      else pyParseInt s

/-- Calendar dates as stored in `registered_at`. -/
structure PyDate where
  year : Nat
  month : Nat
  day : Nat
deriving DecidableEq, Repr

/-- Days in a month, with Gregorian leap years. -/
def daysInMonth (y m : Nat) : Nat :=
  if m = 2 then
    if y % 4 = 0 ∧ (y % 100 ≠ 0 ∨ y % 400 = 0) then 29 else 28
  else if m = 4 ∨ m = 6 ∨ m = 9 ∨ m = 11 then 30
  else 31

/-- Validity check performed by `datetime.strptime`. -/
def validDate (y m d : Nat) : Bool :=
  1 ≤ y && 1 ≤ m && m ≤ 12 && 1 ≤ d && d ≤ daysInMonth y m

/-- Parse an 8-digit `YYYYMMDD` list. -/
def parseYmd8 (s : List Char) : Option PyDate :=
  if s.length = 8 ∧ s.all Char.isDigit then
    let y := digitsVal (s.take 4)
    let m := digitsVal ((s.drop 4).take 2)
    let d := digitsVal (s.drop 6)
    if validDate y m d then some ⟨y, m, d⟩ else none
  else none

/-- Embedding of `_parse_datetime` (naver_crawler.py:108): a `YY.MM.DD` form
(strptime `%y` maps 00-68 to 2000-2068 and 69-99 to 1969-1999), otherwise
separators are removed and `YYYYMMDD` is tried. -/
def _parse_datetime (dateStr : Option (List Char)) : Option PyDate :=
  match dateStr with
  | none => none
  | some s0 =>
      if s0 = [] then none
      else
        let s := strip s0
        let dotted :=
          match s with
          | [a, b, '.', c, d, '.', e, f] =>
              if [a, b, c, d, e, f].all Char.isDigit then
                let yy := digitsVal [a, b]
                let y := if yy ≤ 68 then 2000 + yy else 1900 + yy
                let m := digitsVal [c, d]
                let d2 := digitsVal [e, f]
                if validDate y m d2 then some (⟨y, m, d2⟩ : PyDate) else none
              else none
          | _ => none
        match dotted with
        | some d => some d
        | none => parseYmd8 (s.filter (fun c => c ≠ '.' ∧ c ≠ '-'))

end NaverCrawl

namespace Models

/-!
Embedding of the table rows of `app/models/apartment.py`.  Surrogate ids and
audit timestamps are kept only where the services read them.  `dong_code` and
the `ComplexComparison` class are referenced throughout the application but
absent from the snapshot's model file; their fields follow the spec (a
10-digit administrative code, and the columns assigned by the comparison
service).  Per the spec's data model the external listing id is optional
(the transaction resolver's auto-create path leaves it unset).
-/

/-- A row of the `apartment_complex` table (`app/models/apartment.py:7`). -/
structure ApartmentComplex where
  id : Int
  naverComplexNo : Option (List Char)
  name : List Char
  address : Option (List Char)
  sido : List Char
  sigungu : List Char
  dong : Option (List Char)
  totalUnits : Option Int
  builtYear : Option Int
  lat : Option ℚ
  lng : Option ℚ
  dongCode : Option (List Char)
deriving DecidableEq, Repr

/-- A row of the `kb_prices` table (`app/models/apartment.py:26`). -/
structure KBPrice where
  complexId : Int
  areaSqm : ℚ
  priceLower : Option Int
  priceMid : Option Int
  priceUpper : Option Int
  updatedAt : Int
deriving DecidableEq, Repr

/-- A row of the `listings` table (`app/models/apartment.py:43`); the crawler
always stores a (possibly empty) building-name string in `dong`. -/
structure Listing where
  naverArticleId : List Char
  complexId : Int
  dong : List Char
  areaSqm : ℚ
  floor : Option Int
  askingPrice : Int
  listingUrl : List Char
  registeredAt : Option NaverCrawl.PyDate
  isActive : Bool
deriving DecidableEq, Repr

/-- A row of the `real_transactions` table (`app/models/apartment.py:75`). -/
structure RealTransaction where
  complexId : Int
  areaSqm : ℚ
  floor : Option Int
  dealPrice : Int
  dealDate : Int
deriving DecidableEq, Repr

/-- A row of the `complex_comparisons` table (columns as assigned by
`update_all_comparisons`). -/
structure ComplexComparison where
  complexId : Int
  areaSqm : ℚ
  kbPriceMid : Int
  recentDealPrice : Int
  recentDealDate : Int
  dealDiscountRate : ℚ
  dealCount3m : Nat
deriving DecidableEq, Repr

end Models

namespace Store

/-- Update the first element satisfying `p`, the model of loading a row with
`query(...).first()` and mutating it. -/
def updateFirst {α : Type} (p : α → Bool) (f : α → α) : List α → List α
  | [] => []
  | a :: l => if p a then f a :: l else a :: updateFirst p f l

/-- Model of `if incoming is not None: field = incoming`. -/
def updIfSome {α : Type} (incoming old : Option α) : Option α :=
  match incoming with
  | some v => some v
  | none => old

end Store

namespace KbService

/-!
Embedding of `app/services/kb_price_service.py`: the `KBPrice` table rows
(model `app/models/apartment.py:26`) and the module-level upsert helper
`_upsert_kb_prices` (kb_price_service.py:441).
-/

open Store Models

/-- One normalized price record as produced by
`KBPriceClient.get_all_prices`. -/
structure PriceData where
  areaSqm : Option ℚ
  priceLower : Option Int
  priceMid : Option Int
  priceUpper : Option Int
deriving DecidableEq, Repr

/-- Whether a stored row has the upsert key (complex_id, area_sqm). -/
def kbKeyIs (complexId : Int) (area : ℚ) (r : KBPrice) : Bool :=
  r.complexId = complexId ∧ r.areaSqm = area

/-- The field update applied to an existing row by `_upsert_kb_prices`:
each price field changes only when the incoming value is non-null;
`updated_at` always advances. -/
def kbPriceUpdate (pd : PriceData) (now : Int) (r : KBPrice) : KBPrice :=
  { r with
    priceLower := updIfSome pd.priceLower r.priceLower
    priceMid := updIfSome pd.priceMid r.priceMid
    priceUpper := updIfSome pd.priceUpper r.priceUpper
    updatedAt := now }

/-- One iteration of the `_upsert_kb_prices` loop: skip a record with a null
`area_sqm`, update the first existing (complex_id, area_sqm) row, or insert a
new one. -/
def upsertKbStep (complexId : Int) (now : Int) (acc : List KBPrice × Nat)
    (pd : PriceData) : List KBPrice × Nat :=
  match pd.areaSqm with
  | none => acc
  | some area =>
      let rows := acc.1
      if rows.any (kbKeyIs complexId area) then
        (updateFirst (kbKeyIs complexId area) (kbPriceUpdate pd now) rows,
         acc.2 + 1)
      else
        (rows ++ [{ complexId := complexId
                    areaSqm := area
                    priceLower := pd.priceLower
                    priceMid := pd.priceMid
                    priceUpper := pd.priceUpper
                    updatedAt := now }], acc.2 + 1)

/-- Embedding of `_upsert_kb_prices` (kb_price_service.py:441): fold the
per-record upsert over the incoming price list.  Returns the new table and
the saved count. -/
def _upsert_kb_prices (db : List KBPrice) (complexId : Int)
    (prices : List PriceData) (now : Int) : List KBPrice × Nat :=
  prices.foldl (upsertKbStep complexId now) (db, 0)

end KbService

namespace CompareService

/-!
Embedding of `app/services/complex_comparison_service.py`: rows of the
`real_transactions` and `complex_comparisons` tables, `_get_recent_deal`
(source lines 32-86) and `update_all_comparisons` (source lines 89-168).
`ComplexComparison`'s columns are those assigned by the service; the model
class itself is imported by the application but absent from the snapshot.
-/

open Store Models

/-- Recent-deal window in days (complex_comparison_service.py:29). -/
def RECENT_DEAL_DAYS : Int := 90

/-- The SQL filter of `_get_recent_deal`: same complex, area within the
tolerance (SQL `BETWEEN` is inclusive), deal date at or after the cutoff. -/
def txMatches (complexId : Int) (area tol : ℚ) (cutoff : Int)
    (t : RealTransaction) : Bool :=
  t.complexId = complexId ∧
    (area - tol ≤ t.areaSqm ∧ t.areaSqm ≤ area + tol) ∧
    cutoff ≤ t.dealDate

/-- Model of `.order_by(deal_date.desc()).first()`: the first row attaining
the maximal deal date (stable descending sort). -/
def firstMaxByDate : List RealTransaction → Option RealTransaction
  | [] => none
  | t :: ts =>
      some (ts.foldl (fun best x => if best.dealDate < x.dealDate then x else best) t)

/-- Result shape of `_get_recent_deal`. -/
structure RecentDeal where
  dealPrice : Int
  dealDate : Int
  dealCount : Nat
deriving DecidableEq, Repr

/-- The window filter of `_get_recent_deal`: transactions of the complex
within the area tolerance whose date is at or after `now - 90` days. -/
def windowTxs (txs : List RealTransaction) (now : Int) (complexId : Int)
    (area tol : ℚ) : List RealTransaction :=
  txs.filter (txMatches complexId area tol (now - RECENT_DEAL_DAYS))

/-- Embedding of `_get_recent_deal` (complex_comparison_service.py:32):
most recent transaction for the complex within `tol` square meters over the
last 90 days, together with the window's transaction count. -/
def _get_recent_deal (txs : List RealTransaction) (now : Int)
    (complexId : Int) (area : ℚ) (tol : ℚ) : Option RecentDeal :=
  match firstMaxByDate (windowTxs txs now complexId area tol) with
  | none => none
  | some t =>
      some ⟨t.dealPrice, t.dealDate, (windowTxs txs now complexId area tol).length⟩

/-- Round to the nearest integer, ties to even — the rounding of Python's
`round`. -/
def roundHalfEven (q : ℚ) : Int :=
  let f := ⌊q⌋
  let r := q - f
  if r < 1 / 2 then f
  else if 1 / 2 < r then f + 1
  else if f % 2 = 0 then f else f + 1

/-- Model of Python `round(x, 2)` over the rationals that stand in for the
source's floats. -/
def pyRound2 (q : ℚ) : ℚ :=
  (roundHalfEven (q * 100) : ℚ) / 100

/-- Whether a comparison row has the upsert key (complex_id, area_sqm). -/
def compKeyIs (complexId : Int) (area : ℚ) (c : ComplexComparison) : Bool :=
  c.complexId = complexId ∧ c.areaSqm = area

/-- The store state read and written by the comparison pass. -/
structure CompDB where
  kbPrices : List KBPrice
  transactions : List RealTransaction
  comparisons : List ComplexComparison
deriving DecidableEq, Repr

/-- The discount-rate computation of `update_all_comparisons` (line 130 and
146): `(kb_mid - deal_price) / kb_mid * 100` rounded to 2 decimals. -/
def discountRate (mid dealPrice : Int) : ℚ :=
  pyRound2 (((mid : ℚ) - (dealPrice : ℚ)) / (mid : ℚ) * 100)

/-- The field update applied to an existing comparison row by the upsert of
`update_all_comparisons`. -/
def compUpdate (mid : Int) (recent : RecentDeal) (rate : ℚ)
    (c : ComplexComparison) : ComplexComparison :=
  { c with
    kbPriceMid := mid
    recentDealPrice := recent.dealPrice
    recentDealDate := recent.dealDate
    dealDiscountRate := rate
    dealCount3m := recent.dealCount }

/-- The fresh comparison row inserted by `update_all_comparisons`. -/
def compNewRow (cid : Int) (area : ℚ) (mid : Int) (recent : RecentDeal)
    (rate : ℚ) : ComplexComparison :=
  { complexId := cid
    areaSqm := area
    kbPriceMid := mid
    recentDealPrice := recent.dealPrice
    recentDealDate := recent.dealDate
    dealDiscountRate := rate
    dealCount3m := recent.dealCount }

/-- One iteration of the `update_all_comparisons` loop over a `KBPrice` row:
skip on null mid or no recent deal, otherwise compute the discount rate
`(kb_mid - deal_price) / kb_mid * 100` rounded to 2 decimals and upsert the
comparison row (mid 0 would raise `ZeroDivisionError` in the source; theorems
assume a nonzero mid).  State is (comparisons, updated, skipped). -/
def processKbRow (txs : List RealTransaction) (now : Int)
    (acc : List ComplexComparison × Nat × Nat) (kb : KBPrice) :
    List ComplexComparison × Nat × Nat :=
  match kb.priceMid with
  | none => (acc.1, acc.2.1, acc.2.2 + 1)
  | some mid =>
      match _get_recent_deal txs now kb.complexId kb.areaSqm 3 with
      | none => (acc.1, acc.2.1, acc.2.2 + 1)
      | some recent =>
          ((if acc.1.any (compKeyIs kb.complexId kb.areaSqm) then
              updateFirst (compKeyIs kb.complexId kb.areaSqm)
                (compUpdate mid recent (discountRate mid recent.dealPrice)) acc.1
            else
              acc.1 ++ [compNewRow kb.complexId kb.areaSqm mid recent
                (discountRate mid recent.dealPrice)]),
           acc.2.1 + 1, acc.2.2)

/-- Embedding of `update_all_comparisons` (complex_comparison_service.py:89):
fold the per-row upsert over every stored `KBPrice` row; returns the new store
and the (updated, skipped) counters. -/
def update_all_comparisons (db : CompDB) (now : Int) : CompDB × Nat × Nat :=
  let res := db.kbPrices.foldl (processKbRow db.transactions now) (db.comparisons, 0, 0)
  ({ db with comparisons := res.1 }, res.2.1, res.2.2)

end CompareService

namespace TxService

/-!
Embedding of `app/services/real_transaction_service.py`: the name
normalizer/matcher used for transaction resolution (source lines 26-140),
complex auto-creation (lines 143-176), the duplicate fingerprint check
(lines 179-215) and `save_transactions` (lines 218-301).
-/

open PyStr Store Models

/-- Area tolerance constant (real_transaction_service.py:23). -/
def AREA_TOLERANCE : ℚ := 1

/-- One step of a match of the global regex `[\d,]+동` at the head of `s`:
a nonempty run of digits/commas immediately followed by `동`. -/
def headDigitsCommaDong (s : List Char) : Bool :=
  let run := s.takeWhile (fun c => c.isDigit || c = ',')
  run ≠ [] && (s.dropWhile (fun c => c.isDigit || c = ',')).head? = some '동'

/-- Model of `re.sub(r"[\d,]+동.*$", "", s)`: truncate at the leftmost
position where a digits/commas run is followed by `동` (the `.*$` swallows
the rest; names contain no newline). -/
def subDCDongToEnd : List Char → List Char
  | [] => []
  | c :: cs => if headDigitsCommaDong (c :: cs) then [] else c :: subDCDongToEnd cs

/-- Try the regex `\d+동[~\-]\d+동` at the head of `s`; on success return the
remainder after the match. -/
def matchDongRangeAt (s : List Char) : Option (List Char) :=
  let d1 := s.takeWhile Char.isDigit
  if d1 = [] then none
  else
    match s.dropWhile Char.isDigit with
    | '동' :: t1 =>
        match t1 with
        | c :: t2 =>
            if c = '~' ∨ c = '-' then
              let d2 := t2.takeWhile Char.isDigit
              if d2 = [] then none
              else
                match t2.dropWhile Char.isDigit with
                | '동' :: t3 => some t3
                | _ => none
            else none
        | [] => none
    | _ => none

/-- Fuel-driven worker for `subDongRange`. -/
def subDongRangeF : Nat → List Char → List Char
  | 0, s => s
  | _ + 1, [] => []
  | fuel + 1, c :: cs =>
      match matchDongRangeAt (c :: cs) with
      | some rest => subDongRangeF fuel rest
      | none => c :: subDongRangeF fuel cs

/-- Model of `re.sub(r"\d+동[~\-]\d+동", "", s)`: delete every dong-range
pattern, scanning left to right without overlap. -/
def subDongRange (s : List Char) : List Char :=
  subDongRangeF s.length s

/-- The character class `[\s\-·・]` removed by the normalizer. -/
def isSpaceHyphenDot (c : Char) : Bool :=
  isPySpace c || c = '-' || c = '·' || c = '・'

/-- Embedding of `_normalize_name` (real_transaction_service.py:26): remove
parenthesized content, truncate from a digits-comma `동` group, delete dong
ranges and a trailing dong number, drop whitespace/hyphens/interpuncts,
strip. -/
def _normalize_name (name : List Char) : List Char :=
  strip
    ((stripDigitsSuffix ['동']
        (subDongRange (subDCDongToEnd (removeParens name)))).filter
      (fun c => ¬ isSpaceHyphenDot c))

/-- Region filter shared by all matching strategies. -/
def inRegion (sido sigungu : List Char) (c : ApartmentComplex) : Bool :=
  c.sido = sido ∧ c.sigungu = sigungu

/-- Embedding of `_match_complex` (real_transaction_service.py:48): the
five-strategy waterfall over the complexes of the (sido, sigungu) region.
Queries return the first stored row in insertion order. -/
def _match_complex (complexes : List ApartmentComplex)
    (aptName sido sigungu : List Char) : Option Int :=
  match complexes.find? (fun c => inRegion sido sigungu c && c.name = aptName) with
  | some c => some c.id
  | none =>
  match complexes.find? (fun c => inRegion sido sigungu c && iLikeSub aptName c.name) with
  | some c => some c.id
  | none =>
      let allComplexes := complexes.filter (inRegion sido sigungu)
      match allComplexes.find?
          (fun c => removeSpaces c.name = removeSpaces aptName) with
      | some c => some c.id
      | none =>
          let apiNorm := _normalize_name aptName
          let strat4 :=
            if 2 ≤ apiNorm.length then
              allComplexes.find? (fun c => _normalize_name c.name = apiNorm)
            else none
          match strat4 with
          | some c => some c.id
          | none =>
              if 3 ≤ apiNorm.length then
                let best := allComplexes.foldl
                  (fun (acc : Option Int × Nat) c =>
                    let dbNorm := _normalize_name c.name
                    if dbNorm.length < 3 then acc
                    else if infixOf apiNorm dbNorm || infixOf dbNorm apiNorm then
                      let matchLen := min apiNorm.length dbNorm.length
                      if acc.2 < matchLen then (some c.id, matchLen) else acc
                    else acc)
                  (none, 0)
                best.1
              else none

/-- Model of Python `x or None` on an optional integer (0 is falsy). -/
def orNoneInt (o : Option Int) : Option Int :=
  match o with
  | some v => if v = 0 then none else some v
  | none => none

/-- Model of Python `s or None` on a string (empty is falsy). -/
def orNoneStr (s : List Char) : Option (List Char) :=
  if s = [] then none else some s

/-- One normalized government transaction record as fed to
`save_transactions`. -/
structure TxData where
  aptName : List Char
  areaSqm : ℚ
  floor : Option Int
  dealPrice : Int
  dealDate : Int
  umdName : List Char
  buildYear : Option Int
deriving DecidableEq, Repr

/-- Store state touched by transaction ingestion; `nextId` models the
autoincrement sequence of `apartment_complex.id`. -/
structure TxDB where
  complexes : List ApartmentComplex
  transactions : List RealTransaction
  nextId : Int
deriving DecidableEq, Repr

/-- Embedding of `_create_complex` (real_transaction_service.py:143): insert
a complex from transaction fields; `flush` pins the fresh id. -/
def _create_complex (db : TxDB) (aptName sido sigungu dong : List Char)
    (buildYear : Option Int) : TxDB × Int :=
  let newId := db.nextId
  ({ db with
      complexes := db.complexes ++
        [{ id := newId
           naverComplexNo := none
           name := aptName
           address := none
           sido := sido
           sigungu := sigungu
           dong := orNoneStr dong
           totalUnits := none
           builtYear := orNoneInt buildYear
           lat := none
           lng := none
           dongCode := none }]
      nextId := newId + 1 }, newId)

/-- Embedding of `_is_duplicate` (real_transaction_service.py:179): the
fingerprint is (complex, area, floor, deal_date, deal_price); a null floor
matches only null floors (`floor IS NULL`). -/
def _is_duplicate (txs : List RealTransaction) (complexId : Int) (areaSqm : ℚ)
    (floor : Option Int) (dealDate : Int) (dealPrice : Int) : Bool :=
  txs.any (fun r =>
    r.complexId == complexId && r.areaSqm == areaSqm &&
      r.dealDate == dealDate && r.dealPrice == dealPrice &&
      (match floor with
       | some v => r.floor == some v
       | none => r.floor == none))

/-- The fingerprint comparison of `_is_duplicate` as a relation between a
stored row and a candidate row: same (complex, area, deal_date, deal_price)
and floors equal with nulls-equal semantics. -/
def txFpEq (a b : RealTransaction) : Bool :=
  a.complexId == b.complexId && a.areaSqm == b.areaSqm &&
    a.dealDate == b.dealDate && a.dealPrice == b.dealPrice &&
    (match b.floor with
     | some v => a.floor == some v
     | none => a.floor == none)

/-- Loop state of `save_transactions`: store, per-batch match cache and the
(saved, duplicates, created) counters. -/
structure SaveState where
  db : TxDB
  cache : List (List Char × Int)
  saved : Nat
  duplicates : Nat
  created : Nat
deriving DecidableEq, Repr

/-- The complex-resolution phase of one `save_transactions` iteration:
cache hit, `_match_complex`, or auto-create. -/
def resolveComplex (sido sigungu : List Char) (st : SaveState) (tx : TxData) :
    SaveState × Int :=
  match st.cache.find? (fun p => p.1 = tx.aptName) with
  | some p => (st, p.2)
  | none =>
      match _match_complex st.db.complexes tx.aptName sido sigungu with
      | some cid => ({ st with cache := st.cache ++ [(tx.aptName, cid)] }, cid)
      | none =>
          let res := _create_complex st.db tx.aptName sido sigungu tx.umdName tx.buildYear
          ({ st with
              db := res.1
              cache := st.cache ++ [(tx.aptName, res.2)]
              created := st.created + 1 }, res.2)

/-- The insert-or-count phase of one `save_transactions` iteration, on the
state and complex id produced by the resolution phase. -/
def dupCheckInsert (tx : TxData) (r : SaveState × Int) : SaveState :=
  if _is_duplicate r.1.db.transactions r.2 tx.areaSqm tx.floor tx.dealDate tx.dealPrice then
    { r.1 with duplicates := r.1.duplicates + 1 }
  else
    { r.1 with
        db := { r.1.db with
                  transactions := r.1.db.transactions ++
                    [{ complexId := r.2
                       areaSqm := tx.areaSqm
                       floor := tx.floor
                       dealPrice := tx.dealPrice
                       dealDate := tx.dealDate }] }
        saved := r.1.saved + 1 }

/-- One iteration of the `save_transactions` loop: resolve the complex
(via cache, match, or auto-create), then insert unless the fingerprint is a
duplicate.  Pending inserts are visible to the duplicate query
(session autoflush). -/
def saveTxStep (sido sigungu : List Char) (st : SaveState) (tx : TxData) :
    SaveState :=
  dupCheckInsert tx (resolveComplex sido sigungu st tx)

/-- Embedding of `save_transactions` (real_transaction_service.py:218);
the final commit is a no-op in the model.  Returns the store and the
(saved, duplicates, created) counters. -/
def save_transactions (db : TxDB) (transactions : List TxData)
    (sido sigungu : List Char) : TxDB × Nat × Nat × Nat :=
  let st := transactions.foldl (saveTxStep sido sigungu)
    { db := db, cache := [], saved := 0, duplicates := 0, created := 0 }
  (st.db, st.saved, st.duplicates, st.created)

end TxService

namespace Scheduler

/-!
Embedding of `app/crawler/scheduler.py`: `run_real_transaction_job`
(source lines 156-203), the `collect_and_save` helper it drives
(real_transaction_service.py:304) with the transactions client as an oracle,
and the job registrations of `start_scheduler` (lines 276-337).
-/

open PyStr Models TxService

/-- The transactions client, as a pure oracle from (sido, sigungu,
deal_yyyymm) to normalized records. -/
structure TxOracle where
  fetchByRegion : List Char → List Char → List Char → List TxData

/-- Decimal digits of `n`, zero-padded to width `w`. -/
def padDigits (w n : Nat) : List Char :=
  let ds := Nat.toDigits 10 n
  List.replicate (w - ds.length) '0' ++ ds

/-- Model of `datetime.now().strftime("%Y%m")`. -/
def formatYYYYMM (year month : Nat) : List Char :=
  padDigits 4 year ++ padDigits 2 month

/-- Per-region summary dict of `collect_and_save`. -/
structure JobSummary where
  sido : List Char
  sigungu : List Char
  dealYmd : List Char
  fetched : Nat
  saved : Nat
  duplicates : Nat
  created : Nat
deriving DecidableEq, Repr

/-- Embedding of `collect_and_save` (real_transaction_service.py:304): fetch
one (region, month) page set and store it; an empty fetch returns a zero
summary without touching the store. -/
def collect_and_save (oracle : TxOracle) (db : TxDB)
    (sido sigungu dealYmd : List Char) : TxDB × JobSummary :=
  let txs := oracle.fetchByRegion sido sigungu dealYmd
  if txs = [] then
    (db, ⟨sido, sigungu, dealYmd, 0, 0, 0, 0⟩)
  else
    let res := save_transactions db txs sido sigungu
    (res.1, ⟨sido, sigungu, dealYmd, txs.length, res.2.1, res.2.2.1, res.2.2.2⟩)

/-- A configured (province, district) target region. -/
structure Region where
  sido : List Char
  sigungu : List Char
deriving DecidableEq, Repr

/-- Embedding of `run_real_transaction_job` (scheduler.py:156): one
`deal_ymd` is computed from the wall clock (`now.strftime("%Y%m")`, the
current calendar month) and used for every configured region; regions with a
blank name are skipped.  The returned list also logs every `deal_ymd` passed
to the client, one entry per fetch. -/
def run_real_transaction_job (oracle : TxOracle) (nowYear nowMonth : Nat)
    (targetRegions : List Region) (db : TxDB) :
    TxDB × List JobSummary × List (List Char) :=
  let dealYmd := formatYYYYMM nowYear nowMonth
  targetRegions.foldl
    (fun acc region =>
      if region.sido = [] ∨ region.sigungu = [] then acc
      else
        let res := collect_and_save oracle acc.1 region.sido region.sigungu dealYmd
        (res.1, acc.2.1 ++ [res.2], acc.2.2 ++ [dealYmd]))
    (db, [], [])

/-- APScheduler trigger shapes used by `start_scheduler`. -/
inductive Trigger where
  | interval (minutes : Nat)
  | cron (hour minute : Nat)
deriving DecidableEq, Repr

/-- One `add_job` registration. -/
structure JobSpec where
  id : List Char
  trigger : Trigger
  maxInstances : Nat
deriving DecidableEq, Repr

/-- Modelled from the spec: `settings.NAVER_CRAWL_INTERVAL_MINUTES` is read
by `start_scheduler` but missing from the snapshot's `config/settings.py`;
the spec gives the listings interval default 150 minutes. -/
def NAVER_CRAWL_INTERVAL_MINUTES : Nat := 150

/-- KB price cron defaults (config/settings.py:10). -/
def KB_PRICE_CRON_HOUR : Nat := 6

/-- KB price cron minute default (config/settings.py:11). -/
def KB_PRICE_CRON_MINUTE : Nat := 0

/-- Embedding of the three `add_job` calls of `start_scheduler`
(scheduler.py:300-327). -/
def start_scheduler_jobs : List JobSpec :=
  [ { id := "naver_compare_job".toList
      trigger := Trigger.interval NAVER_CRAWL_INTERVAL_MINUTES
      maxInstances := 1 }
  , { id := "kb_price_job".toList
      trigger := Trigger.cron KB_PRICE_CRON_HOUR KB_PRICE_CRON_MINUTE
      maxInstances := 1 }
  , { id := "real_transaction_job".toList
      trigger := Trigger.cron 2 0
      maxInstances := 1 } ]

end Scheduler

namespace KbParallel

/-!
Embedding of the dong-grouped parallel KB collection of
`app/services/kb_price_service.py`: `update_kb_prices_parallel`
(source lines 274-367) and `_process_dong_group` (lines 369-434).
The HTTP client is a pure oracle; the per-call retry/throttle layer and the
try/except blocks around it are below the modelled level (the oracle always
answers, possibly with an empty list).  `asyncio.Semaphore(concurrency)` is
modelled as a transition system over the group tasks, each of which acquires
one permit for its whole body and releases it on completion.
-/

open PyStr Store Models KbService KbClient

/-- One record of the list returned by `KBPriceClient.get_complex_list`:
the fields read by the matcher (`단지명`) and the caller
(`단지기본일련번호`, already through `int(...)`). -/
structure KBComplexRec where
  name : List Char
  kbId : Int
deriving DecidableEq, Repr

/-- The KB client as a pure oracle: per-dong complex list and per-complex
normalized price records. -/
structure KBOracle where
  complexList : List Char → List KBComplexRec
  allPrices : Int → List PriceData

/-- Modelled from the spec: `KBPriceClient.match_from_list` is called by
`_process_dong_group` (and two scripts) but is not defined in the snapshot's
`kb_price_client.py`.  Spec §4.3: score the normalized name against each
candidate and return the highest-scoring candidate when its score is at
least 40, else no match (ties keep the first best, as in the in-source
`match_complex`; the dong hint is not part of the specified scoring). -/
def match_from_list (complexName : List Char) (kbList : List KBComplexRec)
    (dong : Option (List Char)) : Option KBComplexRec :=
  let _ := dong
  let cleanTarget := _normalize_name complexName
  let best := kbList.foldl
    (fun (acc : Option KBComplexRec × Int) cx =>
      let score := _calc_match_score cleanTarget (_normalize_name cx.name)
      if acc.2 < score then (some cx, score) else acc)
    (none, 0)
  match best.1 with
  | some m => if 40 ≤ best.2 then some m else none
  | none => none

/-- Per-group counters of `_process_dong_group`. -/
structure GroupStats where
  matched : Nat
  saved : Nat
  failed : Nat
deriving DecidableEq, Repr

/-- Result of one group task: the store, the counters, the number of
`get_complex_list` calls it issued and the `get_all_prices` call log. -/
structure GroupResult where
  db : List KBPrice
  stats : GroupStats
  listCalls : Nat
  priceCalls : List Int
deriving DecidableEq, Repr

/-- One iteration of the `_process_dong_group` loop over a complex of the
group: match against the group's single KB list, fetch all prices for a
match, and upsert when prices came back (the per-complex commit is a no-op
in the model). -/
def processGroupComplex (oracle : KBOracle) (kbList : List KBComplexRec)
    (now : Int) (acc : GroupResult) (c : ApartmentComplex) : GroupResult :=
  match match_from_list c.name kbList c.dong with
  | none => { acc with stats := { acc.stats with failed := acc.stats.failed + 1 } }
  | some m =>
      let prices := oracle.allPrices m.kbId
      let acc1 := { acc with priceCalls := acc.priceCalls ++ [m.kbId] }
      if prices = [] then
        { acc1 with stats := { acc1.stats with failed := acc1.stats.failed + 1 } }
      else
        let res := _upsert_kb_prices acc1.db c.id prices now
        { acc1 with
            db := res.1
            stats := { acc1.stats with
                         matched := acc1.stats.matched + 1
                         saved := acc1.stats.saved + res.2 } }

/-- Embedding of `_process_dong_group` (kb_price_service.py:369): fetch the
dong's KB complex list exactly once; an empty list fails the whole group,
otherwise every complex of the group is matched against that list. -/
def _process_dong_group (oracle : KBOracle) (dongCode : List Char)
    (complexes : List ApartmentComplex) (db : List KBPrice) (now : Int) :
    GroupResult :=
  let kbList := oracle.complexList dongCode
  if kbList = [] then
    { db := db
      stats := { matched := 0, saved := 0, failed := complexes.length }
      listCalls := 1
      priceCalls := [] }
  else
    complexes.foldl (processGroupComplex oracle kbList now)
      { db := db
        stats := { matched := 0, saved := 0, failed := 0 }
        listCalls := 1
        priceCalls := [] }

/-- The `defaultdict(list)` grouping of `update_kb_prices_parallel`:
group keys in first-appearance order, each group in stored order. -/
def groupByDong (complexes : List ApartmentComplex) :
    List (List Char × List ApartmentComplex) :=
  complexes.foldl
    (fun groups c =>
      match c.dongCode with
      | none => groups
      | some dc =>
          if groups.any (fun g => g.1 = dc) then
            updateFirst (fun g => g.1 = dc) (fun g => (g.1, g.2 ++ [c])) groups
          else groups ++ [(dc, [c])])
    []

/-- Aggregate result of `update_kb_prices_parallel`: final store, summed
counters and the per-group results in group order. -/
structure ParallelResult where
  db : List KBPrice
  totalComplexes : Nat
  dongGroups : Nat
  matched : Nat
  saved : Nat
  failed : Nat
  groupResults : List GroupResult
deriving DecidableEq, Repr

/-- Embedding of `update_kb_prices_parallel` (kb_price_service.py:274):
restrict to complexes with a non-null `dong_code`, group them by that code,
run `_process_dong_group` per group and aggregate the statistics.  The
store effects are serialized per group (the semaphore model below carries
the in-flight bound; group bodies only interleave between complexes, and
distinct groups touch distinct complexes). -/
def update_kb_prices_parallel (oracle : KBOracle)
    (complexes : List ApartmentComplex) (db : List KBPrice) (now : Int) :
    ParallelResult :=
  let eligible := complexes.filter (fun c => c.dongCode.isSome)
  let groups := groupByDong eligible
  let final := groups.foldl
    (fun (acc : List KBPrice × List GroupResult) g =>
      let res := _process_dong_group oracle g.1 g.2 acc.1 now
      (res.db, acc.2 ++ [res]))
    (db, [])
  { db := final.1
    totalComplexes := eligible.length
    dongGroups := groups.length
    matched := (final.2.map (fun r => r.stats.matched)).sum
    saved := (final.2.map (fun r => r.stats.saved)).sum
    failed := (final.2.map (fun r => r.stats.failed)).sum
    groupResults := final.2 }

/-- Default of the `concurrency` parameter of `update_kb_prices_parallel`
(kb_price_service.py:276). -/
def DEFAULT_CONCURRENCY : Nat := 5

/-- Lifecycle phase of one group task with respect to the semaphore. -/
inductive Phase where
  | waiting
  | running
  | done
deriving DecidableEq, Repr

/-- Number of tasks currently inside the semaphore-guarded body. -/
def runningCount (ph : List Phase) : Nat :=
  (ph.filter (fun p => p = Phase.running)).length

/-- Transitions of `asyncio.Semaphore(n)` guarding the group tasks: a task
enters its body only while fewer than `n` tasks are inside; leaving is always
possible.  This is the `async with semaphore` of `_process_dong_group`. -/
inductive SemStep (n : Nat) : List Phase → List Phase → Prop where
  | acquire (i : Nat) (ph : List Phase)
      (hi : ph.get? i = some Phase.waiting)
      (hn : runningCount ph < n) :
      SemStep n ph (ph.set i Phase.running)
  | release (i : Nat) (ph : List Phase)
      (hi : ph.get? i = some Phase.running) :
      SemStep n ph (ph.set i Phase.done)

/-- States reachable by the `k` group tasks of one parallel run, starting
with every task waiting. -/
def semReachable (n k : Nat) (ph : List Phase) : Prop :=
  Relation.ReflTransGen (SemStep n) (List.replicate k Phase.waiting) ph

end KbParallel

namespace NaverCrawl

/-!
Embedding of the crawler class of `app/crawler/naver_crawler.py`: region
discovery, pagination (with the client's page normalization of
`app/crawler/naver_client.py`), the complex and listing upserts, deactivation,
and the full and incremental region crawls.  The HTTP client is a pure
oracle; per-unit try/except blocks never fire in the model because oracle
calls cannot raise.
-/

open PyStr Store Models

/-- One normalized sub-region record from `NaverLandClient.get_sub_regions`
(naver_client.py:193). -/
structure RegionRec where
  cortarNo : List Char
  cortarName : List Char
  lat : Option ℚ
  lon : Option ℚ
deriving DecidableEq, Repr

/-- One normalized complex summary from
`NaverLandClient.get_complex_list_in_region` (naver_client.py:233). -/
structure NComplexData where
  complexNo : List Char
  complexName : List Char
  dealCnt : Int
  totalHouseholdCount : Option Int
  useApproveYmd : Option (List Char)
  latitude : Option ℚ
  longitude : Option ℚ
  cortarAddress : List Char
  address : List Char
deriving DecidableEq, Repr

/-- One normalized article from `NaverLandClient.get_articles_for_complex`
(naver_client.py:285). -/
structure ArticleData where
  articleNo : List Char
  articleName : List Char
  dealOrWarrantPrc : List Char
  area1 : Option (List Char)
  area2 : Option (List Char)
  floorInfo : List Char
  buildingName : List Char
  articleConfirmYmd : List Char
  direction : List Char
deriving DecidableEq, Repr

/-- One page of articles: the client passes through the API's `totalCount`. -/
structure ArticlePageRes where
  articleList : List ArticleData
  totalCount : Int
deriving DecidableEq, Repr

/-- The listings client as a pure oracle.  `complexPage` answers
`get_complex_list_in_region` (whose normalized `totalCount` is the length of
the returned page, naver_client.py:283); `articlePage` answers
`get_articles_for_complex`. -/
structure NaverOracle where
  subRegions : List Char → Option (List RegionRec)
  complexPage : List Char → Nat → Option (List NComplexData)
  articlePage : List Char → Nat → Option ArticlePageRes

/-- The `SIDO_CODES` table (naver_crawler.py:29). -/
def SIDO_CODES : List (List Char × List Char) :=
  [ ("서울특별시".toList, "1100000000".toList)
  , ("부산광역시".toList, "2600000000".toList)
  , ("대구광역시".toList, "2700000000".toList)
  , ("인천광역시".toList, "2800000000".toList)
  , ("광주광역시".toList, "2900000000".toList)
  , ("대전광역시".toList, "3000000000".toList)
  , ("울산광역시".toList, "3100000000".toList)
  , ("세종특별자치시".toList, "3600000000".toList)
  , ("경기도".toList, "4100000000".toList)
  , ("강원특별자치도".toList, "4200000000".toList)
  , ("충청북도".toList, "4300000000".toList)
  , ("충청남도".toList, "4400000000".toList)
  , ("전북특별자치도".toList, "4500000000".toList)
  , ("전라남도".toList, "4600000000".toList)
  , ("경상북도".toList, "4700000000".toList)
  , ("경상남도".toList, "4800000000".toList)
  , ("제주특별자치도".toList, "5000000000".toList) ]

/-- Embedding of `_find_sigungu_code` (naver_crawler.py:177): look up the
sido code, list its sub-regions, and return the first whose name matches the
district by bidirectional substring. -/
def _find_sigungu_code (oracle : NaverOracle) (sido sigungu : List Char) :
    Option (List Char) :=
  match (SIDO_CODES.find? (fun p => p.1 = sido)).map (fun p => p.2) with
  | none => none
  | some sidoCode =>
      match oracle.subRegions sidoCode with
      | none => none
      | some [] => none
      | some regions =>
          (regions.find? (fun r =>
            infixOf sigungu r.cortarName || infixOf r.cortarName sigungu)).map
            (fun r => r.cortarNo)

/-- Embedding of `_get_dong_list` (naver_crawler.py:209). -/
def _get_dong_list (oracle : NaverOracle) (sigunguCode : List Char) :
    List RegionRec :=
  match oracle.subRegions sigunguCode with
  | none => []
  | some regions => regions

/-- Paged loop of `_get_complexes_in_dong` (naver_crawler.py:216); the
normalized `totalCount` equals the page length, so the accumulated-count test
stops after the first non-empty page. -/
def getComplexesInDongF (oracle : NaverOracle) (dongCode : List Char) :
    Nat → Nat → List NComplexData → List NComplexData
  | 0, _, acc => acc
  | fuel + 1, page, acc =>
      match oracle.complexPage dongCode page with
      | none => acc
      | some cl =>
          if cl = [] then acc
          else
            let acc2 := acc ++ cl
            if (cl.length : Int) ≤ (acc2.length : Int) then acc2
            else getComplexesInDongF oracle dongCode fuel (page + 1) acc2

/-- Embedding of `_get_complexes_in_dong`; the fuel bounds the while-loop. -/
def _get_complexes_in_dong (oracle : NaverOracle) (fuel : Nat)
    (dongCode : List Char) : List NComplexData :=
  getComplexesInDongF oracle dongCode fuel 1 []

/-- Paged loop of `_get_all_articles_for_complex` (naver_crawler.py:245). -/
def getAllArticlesF (oracle : NaverOracle) (complexNo : List Char) :
    Nat → Nat → List ArticleData → List ArticleData
  | 0, _, acc => acc
  | fuel + 1, page, acc =>
      match oracle.articlePage complexNo page with
      | none => acc
      | some data =>
          if data.articleList = [] then acc
          else
            let acc2 := acc ++ data.articleList
            if data.totalCount ≤ (acc2.length : Int) then acc2
            else getAllArticlesF oracle complexNo fuel (page + 1) acc2

/-- Embedding of `_get_all_articles_for_complex`. -/
def _get_all_articles_for_complex (oracle : NaverOracle) (fuel : Nat)
    (complexNo : List Char) : List ArticleData :=
  getAllArticlesF oracle complexNo fuel 1 []

/-- Store state touched by the listings crawler. -/
structure CrawlDB where
  complexes : List ApartmentComplex
  listings : List Listing
  nextId : Int
deriving DecidableEq, Repr

/-- Python truthiness of an optional integer (`None` and `0` are falsy). -/
def truthyInt (o : Option Int) : Bool :=
  match o with
  | some v => v ≠ 0
  | none => false

/-- Python truthiness of an optional float. -/
def truthyQ (o : Option ℚ) : Bool :=
  match o with
  | some v => v ≠ 0
  | none => false

/-- The `built_year` parse of `_upsert_complex` (naver_crawler.py:301):
`int(str(built_year)[:4])` when the string is truthy with length at least 4,
else `None`; a `ValueError` also gives `None`. -/
def parseBuiltYear (o : Option (List Char)) : Option Int :=
  match o with
  | none => none
  | some s =>
      if s ≠ [] ∧ 4 ≤ s.length then pyParseInt (strip (s.take 4))
      else none

/-- The per-field update of `_upsert_complex` on an existing row
(naver_crawler.py:303-318): the row keeps its stored value only where the
incoming value is falsy (empty string, `None`, zero); `sido`/`sigungu` are
always overwritten. -/
def complexUpd (cd : NComplexData) (sido sigungu : List Char)
    (c : ApartmentComplex) : ApartmentComplex :=
  { c with
      name := if cd.complexName ≠ [] then cd.complexName else c.name
      address := if cd.address ≠ [] then some cd.address else c.address
      sido := sido
      sigungu := sigungu
      dong := if cd.cortarAddress ≠ [] then some cd.cortarAddress else c.dong
      totalUnits := if truthyInt cd.totalHouseholdCount then
        cd.totalHouseholdCount else c.totalUnits
      builtYear := if truthyInt (parseBuiltYear cd.useApproveYmd) then
        parseBuiltYear cd.useApproveYmd else c.builtYear
      lat := if truthyQ cd.latitude then cd.latitude else c.lat
      lng := if truthyQ cd.longitude then cd.longitude else c.lng }

/-- Embedding of `_upsert_complex` (naver_crawler.py:276), keyed by
`naver_complex_no`: an existing row is updated through `complexUpd`; a new
row is inserted otherwise.  Returns the store and the complex id (`none`
when the record carries no complex number). -/
def _upsert_complex (db : CrawlDB) (cd : NComplexData)
    (sido sigungu : List Char) : CrawlDB × Option Int :=
  let complexNo := cd.complexNo
  if complexNo = [] then (db, none)
  else
    let name := cd.complexName
    let address := cd.address
    let dong := cd.cortarAddress
    let builtYear := parseBuiltYear cd.useApproveYmd
    let totalUnits := cd.totalHouseholdCount
    match db.complexes.find? (fun c => c.naverComplexNo = some complexNo) with
    | some existing =>
        ({ db with
            complexes := updateFirst
              (fun c => c.naverComplexNo = some complexNo)
              (complexUpd cd sido sigungu) db.complexes },
         some existing.id)
    | none =>
        let newId := db.nextId
        ({ db with
            complexes := db.complexes ++
              [{ id := newId
                 naverComplexNo := some complexNo
                 name := name
                 address := some address
                 sido := sido
                 sigungu := sigungu
                 dong := some dong
                 totalUnits := totalUnits
                 builtYear := builtYear
                 lat := if truthyQ cd.latitude then cd.latitude else none
                 lng := if truthyQ cd.longitude then cd.longitude else none
                 dongCode := none }]
            nextId := newId + 1 }, some newId)

/-- The listing-URL prefix of `_upsert_listing` (naver_crawler.py:378). -/
def LISTING_URL_HEAD : List Char :=
  "https://m.land.naver.com/article/info/".toList

/-- Embedding of `_upsert_listing` (naver_crawler.py:349): a failed price or
area parse drops the record; an existing row (by `naver_article_id`) gets the
new price, activity and area, keeping floor/dong where the incoming value is
falsy; a new row is inserted otherwise.  Returns the store and whether a row
was written. -/
def _upsert_listing (db : CrawlDB) (a : ArticleData) (complexId : Int) :
    CrawlDB × Bool :=
  let articleId := a.articleNo
  if articleId = [] then (db, false)
  else
    let priceStr := if a.dealOrWarrantPrc ≠ [] then a.dealOrWarrantPrc else []
    match _parse_price (some priceStr) with
    | none => (db, false)
    | some askingPrice =>
        let areaPick :=
          match a.area2 with
          | some s => if s = [] then a.area1 else some s
          | none => a.area1
        match _parse_area areaPick with
        | none => (db, false)
        | some area =>
            let floor :=
              _parse_floor
                (if a.floorInfo ≠ [] then
                  some (a.floorInfo.takeWhile (fun c => c ≠ '/'))
                 else none)
            let dong := a.buildingName
            let registeredAt := _parse_datetime (some a.articleConfirmYmd)
            let listingUrl := LISTING_URL_HEAD ++ articleId
            if db.listings.any (fun l => l.naverArticleId = articleId) then
              ({ db with
                  listings := updateFirst (fun l => l.naverArticleId = articleId)
                    (fun l =>
                      { l with
                          askingPrice := askingPrice
                          isActive := true
                          floor := if truthyInt floor then floor else l.floor
                          dong := if dong ≠ [] then dong else l.dong
                          areaSqm := area })
                    db.listings }, true)
            else
              ({ db with
                  listings := db.listings ++
                    [{ naverArticleId := articleId
                       complexId := complexId
                       dong := dong
                       areaSqm := area
                       floor := floor
                       askingPrice := askingPrice
                       listingUrl := listingUrl
                       registeredAt := registeredAt
                       isActive := true }] }, true)

/-- Embedding of `_deactivate_missing_listings` (naver_crawler.py:407): every
active listing of the complex whose article id was not observed goes
inactive; an empty observed set deactivates them all. -/
def _deactivate_missing_listings (listings : List Listing) (complexId : Int)
    (activeIds : List (List Char)) : List Listing :=
  listings.map (fun l =>
    if l.complexId == complexId && l.isActive &&
        (activeIds.isEmpty || !(activeIds.contains l.naverArticleId)) then
      { l with isActive := false }
    else l)

/-- Embedding of `crawl_complex` (naver_crawler.py:428): upsert the complex,
fetch all its sale articles, upsert each, then deactivate the unobserved
ones.  Returns the store, the number of articles found, and the number
saved. -/
def crawl_complex (oracle : NaverOracle) (fuel : Nat) (db : CrawlDB)
    (cd : NComplexData) (sido sigungu : List Char) : CrawlDB × Nat × Nat :=
  let complexNo := cd.complexNo
  match _upsert_complex db cd sido sigungu with
  | (db1, none) => (db1, 0, 0)
  | (db1, some cid) =>
      let articles := _get_all_articles_for_complex oracle fuel complexNo
      if articles = [] then
        ({ db1 with listings := _deactivate_missing_listings db1.listings cid [] },
         0, 0)
      else
        let activeIds := articles.filterMap (fun a =>
          if a.articleNo ≠ [] then some a.articleNo else none)
        let afterArticles := articles.foldl
          (fun (acc : CrawlDB × Nat) a =>
            let res := _upsert_listing acc.1 a cid
            (res.1, if res.2 then acc.2 + 1 else acc.2))
          (db1, 0)
        ({ afterArticles.1 with
            listings := _deactivate_missing_listings afterArticles.1.listings
              cid activeIds },
         articles.length, afterArticles.2)

/-- The statistics dict of the crawler. -/
structure CrawlStats where
  complexesFound : Nat
  articlesFound : Nat
  articlesSaved : Nat
  errors : Nat
deriving DecidableEq, Repr

/-- Embedding of `crawl_region` (naver_crawler.py:479), the Full Listings
Crawl of one (sido, sigungu): resolve the district code, walk every dong and
every complex; the final commit is a no-op in the model. -/
def crawl_region (oracle : NaverOracle) (fuel : Nat) (db0 : CrawlDB)
    (sido sigungu : List Char) : CrawlDB × CrawlStats :=
  match _find_sigungu_code oracle sido sigungu with
  | none => (db0, ⟨0, 0, 0, 0⟩)
  | some sigunguCode =>
      let dongList := _get_dong_list oracle sigunguCode
      if dongList = [] then (db0, ⟨0, 0, 0, 0⟩)
      else
        dongList.foldl
          (fun (acc : CrawlDB × CrawlStats) dongInfo =>
            let complexes := _get_complexes_in_dong oracle fuel dongInfo.cortarNo
            if complexes = [] then acc
            else
              let statsA := { acc.2 with
                complexesFound := acc.2.complexesFound + complexes.length }
              complexes.foldl
                (fun (acc2 : CrawlDB × CrawlStats) cd =>
                  let res := crawl_complex oracle fuel acc2.1 cd sido sigungu
                  (res.1,
                   { acc2.2 with
                       articlesFound := acc2.2.articlesFound + res.2.1
                       articlesSaved := acc2.2.articlesSaved + res.2.2 }))
                (acc.1, statsA))
          (db0, ⟨0, 0, 0, 0⟩)

/-- Modelled from the spec: `settings.MIN_HOUSEHOLD_COUNT` is read by
`crawl_region_incremental` but missing from the snapshot's settings; the spec
gives `MIN_HOUSEHOLDS` default 200 and notes the filter is inert. -/
def MIN_HOUSEHOLD_COUNT : Int := 200

/-- A Python runtime error surfaced by the embedding. -/
inductive PyErr where
  | nameError (name : List Char)
deriving DecidableEq, Repr

/-- Insertion-ordered dict write, later values overwriting earlier ones. -/
def dictInsert {V : Type} (m : List (List Char × V)) (k : List Char) (v : V) :
    List (List Char × V) :=
  if m.any (fun p => p.1 = k) then
    Store.updateFirst (fun p => p.1 = k) (fun p => (p.1, v)) m
  else m ++ [(k, v)]

/-- Embedding of `_get_active_listing_counts` (naver_crawler.py:599): per
stored complex whose `naver_complex_no` is among `complexNos`, the number of
its active listings (outer join, so zero when none). -/
def _get_active_listing_counts (db : CrawlDB) (complexNos : List (List Char)) :
    List (List Char × Int) :=
  if complexNos = [] then []
  else
    (db.complexes.filter (fun c =>
      match c.naverComplexNo with
      | some no => complexNos.contains no
      | none => false)).map
      (fun c =>
        (c.naverComplexNo.getD [],
         ((db.listings.filter (fun l => l.complexId == c.id && l.isActive)).length : Int)))

/-- Embedding of `_bulk_deactivate_listings` (naver_crawler.py:632):
deactivate every active listing of the named complexes in one statement;
returns the store and the number of rows changed. -/
def _bulk_deactivate_listings (db : CrawlDB) (complexNos : List (List Char)) :
    CrawlDB × Nat :=
  if complexNos = [] then (db, 0)
  else
    let complexIds := (db.complexes.filter (fun c =>
      match c.naverComplexNo with
      | some no => complexNos.contains no
      | none => false)).map (fun c => c.id)
    if complexIds = [] then (db, 0)
    else
      let hit := fun (l : Listing) => complexIds.contains l.complexId && l.isActive
      ({ db with
          listings := db.listings.map (fun l =>
            if hit l then { l with isActive := false } else l) },
       (db.listings.filter hit).length)

/-- Embedding of `crawl_region_incremental` (naver_crawler.py:671).  Phases:
collect every complex summary, map each complex number to its reported
`dealCnt`, bulk-deactivate the zero-deal complexes, skip those whose deal
count equals the stored active-listing count, re-crawl the rest, commit —
and then the completion log of the source reads the never-assigned local
`skipped_small` (line 790), raising `NameError`; the committed store is
returned together with that outcome (the `except` clause re-raises after a
rollback that no longer affects the committed state). -/
def crawl_region_incremental (oracle : NaverOracle) (fuel : Nat)
    (db0 : CrawlDB) (sido sigungu : List Char) :
    CrawlDB × Except PyErr CrawlStats :=
  let minHouseholds := MIN_HOUSEHOLD_COUNT
  let _ := minHouseholds
  match _find_sigungu_code oracle sido sigungu with
  | none => (db0, Except.ok ⟨0, 0, 0, 0⟩)
  | some sigunguCode =>
      let dongList := _get_dong_list oracle sigunguCode
      if dongList = [] then (db0, Except.ok ⟨0, 0, 0, 0⟩)
      else
        let allComplexes := dongList.foldl
          (fun acc dongInfo =>
            acc ++ _get_complexes_in_dong oracle fuel dongInfo.cortarNo) []
        let filtered := allComplexes
        if filtered = [] then
          (db0, Except.ok ⟨allComplexes.length, 0, 0, 0⟩)
        else
          let dealMap := filtered.foldl
            (fun m c => dictInsert m c.complexNo c.dealCnt) []
          let zeroDealNos := (dealMap.filter (fun p => p.2 = 0)).map (fun p => p.1)
          let db1 := (_bulk_deactivate_listings db0 zeroDealNos).1
          let nonzeroNos := (dealMap.filter (fun p => 0 < p.2)).map (fun p => p.1)
          let dbCounts := _get_active_listing_counts db1 nonzeroNos
          let targets := nonzeroNos.filter (fun cno =>
            let apiCnt := ((dealMap.find? (fun p => p.1 = cno)).map (fun p => p.2)).getD 0
            let dbCnt := ((dbCounts.find? (fun p => p.1 = cno)).map (fun p => p.2)).getD (-1)
            apiCnt ≠ dbCnt)
          let dataMap := filtered.foldl (fun m c => dictInsert m c.complexNo c) []
          let dbFinal := targets.foldl
            (fun (acc : CrawlDB × CrawlStats) cno =>
              match dataMap.find? (fun p => p.1 = cno) with
              | none => acc
              | some p =>
                  let res := crawl_complex oracle fuel acc.1 p.2 sido sigungu
                  (res.1,
                   { acc.2 with
                       articlesFound := acc.2.articlesFound + res.2.1
                       articlesSaved := acc.2.articlesSaved + res.2.2 }))
            (db1, ⟨allComplexes.length, 0, 0, 0⟩)
          (dbFinal.1, Except.error (PyErr.nameError "skipped_small".toList))

/-- Test fixture: one complex summary with an accurate `dealCnt` of 1. -/
def testComplexData : NComplexData :=
  { complexNo := "123".toList
    complexName := "테스트".toList
    dealCnt := 1
    totalHouseholdCount := some 500
    useApproveYmd := some "20050101".toList
    latitude := none
    longitude := none
    cortarAddress := "역삼동".toList
    address := "테헤란로 1".toList }

/-- Test fixture: the complex's single sale article. -/
def testArticle : ArticleData :=
  { articleNo := "a1".toList
    articleName := "테스트".toList
    dealOrWarrantPrc := "5,500".toList
    area1 := none
    area2 := some "84".toList
    floorInfo := "5/15".toList
    buildingName := "101동".toList
    articleConfirmYmd := "20240101".toList
    direction := "남향".toList }

/-- Test fixture: a source snapshot with one district, one dong, one complex
and one article, whose reported `dealCnt` (1) matches the article count. -/
def testOracle : NaverOracle :=
  { subRegions := fun code =>
      if code = "1100000000".toList then
        some [⟨"1168000000".toList, "강남구".toList, none, none⟩]
      else if code = "1168000000".toList then
        some [⟨"1168010100".toList, "역삼동".toList, none, none⟩]
      else none
    complexPage := fun dc page =>
      if dc = "1168010100".toList ∧ page = 1 then some [testComplexData]
      else some []
    articlePage := fun no page =>
      if no = "123".toList ∧ page = 1 then some ⟨[testArticle], 1⟩
      else some ⟨[], 0⟩ }

end NaverCrawl


/-!
Helper lemmas, claim theorems, witnesses and counterexamples.
-/

namespace PyStr

theorem removeParensF_of_no_paren :
    ∀ (fuel : Nat) {s : List Char}, (∀ c ∈ s, c ≠ '(') →
      removeParensF fuel s = s := by
  intro fuel
  induction fuel with
  | zero => intro s _; rfl
  | succ f ih =>
      intro s h
      match s with
      | [] => rfl
      | c :: cs =>
          have hc : c ≠ '(' := h c (by simp)
          have hcs : ∀ d ∈ cs, d ≠ '(' := fun d hd => h d (by simp [hd])
          simp [removeParensF, hc, ih hcs]

/-- Strings without an opening parenthesis are untouched by `removeParens`. -/
theorem removeParens_of_no_paren {s : List Char}
    (h : ∀ c ∈ s, c ≠ '(') : removeParens s = s :=
  removeParensF_of_no_paren s.length h

theorem stripDigitsSuffix_of_not_ends {pat s : List Char}
    (h : endsDigitsPat pat s = false) : stripDigitsSuffix pat s = s := by
  unfold stripDigitsSuffix
  unfold endsDigitsPat at h
  cases hd : dropRevSuffix pat.reverse s.reverse with
  | none => simp
  | some r => simp [hd] at h

theorem mem_of_mem_strip {s : List Char} {c : Char} (h : c ∈ strip s) :
    c ∈ s := by
  unfold strip at h
  rw [List.mem_reverse] at h
  have h2 : c ∈ (s.dropWhile isPySpace).reverse :=
    (List.dropWhile_sublist isPySpace).mem h
  rw [List.mem_reverse] at h2
  exact (List.dropWhile_sublist isPySpace).mem h2

theorem strip_of_no_space {s : List Char}
    (h : ∀ c ∈ s, isPySpace c = false) : strip s = s := by
  unfold strip
  have h1 : s.dropWhile isPySpace = s := by
    cases s with
    | nil => rfl
    | cons c cs => simp [List.dropWhile, h c (by simp)]
  rw [h1]
  have h2 : s.reverse.dropWhile isPySpace = s.reverse := by
    cases hr : s.reverse with
    | nil => rfl
    | cons c cs =>
        have hc : c ∈ s := by
          have hm : c ∈ s.reverse := by rw [hr]; simp
          rwa [List.mem_reverse] at hm
        simp [List.dropWhile, h c hc]
  rw [h2, List.reverse_reverse]

theorem toLower_toNat_of_upper {c : Char} (h1 : 65 ≤ c.toNat) (h2 : c.toNat ≤ 90) :
    (Char.ofNat (c.toNat + 32)).toNat = c.toNat + 32 := by
  set n := c.toNat with hn
  interval_cases n <;> decide

theorem toLower_idem (c : Char) : c.toLower.toLower = c.toLower := by
  by_cases h : 65 ≤ c.toNat ∧ c.toNat ≤ 90
  · have h1 : c.toLower = Char.ofNat (c.toNat + 32) := by
      show (if c.toNat ≥ 65 ∧ c.toNat ≤ 90 then Char.ofNat (c.toNat + 32) else c) =
        Char.ofNat (c.toNat + 32)
      rw [if_pos ⟨h.1, h.2⟩]
    have hv := toLower_toNat_of_upper h.1 h.2
    rw [h1]
    show (if (Char.ofNat (c.toNat + 32)).toNat ≥ 65 ∧
            (Char.ofNat (c.toNat + 32)).toNat ≤ 90 then
        Char.ofNat ((Char.ofNat (c.toNat + 32)).toNat + 32)
      else Char.ofNat (c.toNat + 32)) = Char.ofNat (c.toNat + 32)
    rw [if_neg]
    rw [hv]
    omega
  · have h1 : c.toLower = c := by
      show (if c.toNat ≥ 65 ∧ c.toNat ≤ 90 then Char.ofNat (c.toNat + 32) else c) = c
      rw [if_neg (fun hc => h ⟨hc.1, hc.2⟩)]
    rw [h1]
    exact h1

end PyStr

namespace Store

theorem updateFirst_filter_of_disjoint {α : Type} {p q : α → Bool} {f : α → α}
    (hf : ∀ a, q (f a) = q a) (hpq : ∀ a, p a = true → q a = false) :
    ∀ l : List α, (updateFirst p f l).filter q = l.filter q := by
  intro l
  induction l with
  | nil => rfl
  | cons a l ih =>
      by_cases hp : p a
      · have hqa : q a = false := hpq a hp
        have hqfa : q (f a) = false := by rw [hf]; exact hqa
        simp [updateFirst, hp, List.filter_cons, hqa, hqfa]
      · simp [updateFirst, hp, List.filter_cons, ih]

theorem updateFirst_filter_single {α : Type} {p : α → Bool} {f : α → α}
    (hf : ∀ a, p (f a) = p a) :
    ∀ {l : List α} {a : α}, l.filter p = [a] →
      (updateFirst p f l).filter p = [f a] := by
  intro l
  induction l with
  | nil => intro a h; simp at h
  | cons b l ih =>
      intro a h
      by_cases hp : p b
      · rw [List.filter_cons_of_pos hp] at h
        injection h with hb hrest
        subst hb
        have hpf : p (f b) = true := by rw [hf]; exact hp
        simp [updateFirst, hp, List.filter_cons, hpf, hrest]
      · rw [List.filter_cons_of_neg hp] at h
        simp [updateFirst, hp, List.filter_cons, ih h]

theorem updateFirst_map_eq {α β : Type} {p : α → Bool} {f : α → α} (g : α → β)
    (hg : ∀ a, g (f a) = g a) :
    ∀ l : List α, (updateFirst p f l).map g = l.map g := by
  intro l
  induction l with
  | nil => rfl
  | cons a l ih =>
      by_cases hp : p a
      · simp [updateFirst, hp, hg a]
      · simp [updateFirst, hp, ih]

end Store

namespace KbClient

open PyStr

theorem isWordChar_not_space {c : Char} (h : isWordChar c = true) :
    isPySpace c = false := by
  have e1 : c ≠ ' ' := fun he => absurd (he ▸ h) (by decide)
  have e2 : c ≠ '\t' := fun he => absurd (he ▸ h) (by decide)
  have e3 : c ≠ '\n' := fun he => absurd (he ▸ h) (by decide)
  have e4 : c ≠ '\r' := fun he => absurd (he ▸ h) (by decide)
  have e5 : c ≠ '\x0b' := fun he => absurd (he ▸ h) (by decide)
  have e6 : c ≠ '\x0c' := fun he => absurd (he ▸ h) (by decide)
  simp [isPySpace, e1, e2, e3, e4, e5, e6]

theorem isWordChar_ne_lparen {c : Char} (h : isWordChar c = true) : c ≠ '(' :=
  fun he => absurd (he ▸ h) (by decide)

/-- Characters of a normalized name are word characters already in
lowercase. -/
theorem mem_normalize {s : List Char} {c : Char} (h : c ∈ _normalize_name s) :
    isWordChar c = true ∧ c.toLower = c := by
  unfold _normalize_name at h
  have hmem := mem_of_mem_strip h
  have hw : isWordChar c = true := List.of_mem_filter hmem
  have hlow := List.mem_of_mem_filter hmem
  unfold pyLower at hlow
  rcases List.mem_map.mp hlow with ⟨d, _, hd⟩
  exact ⟨hw, by rw [← hd]; exact toLower_idem d⟩

/-- Normalizing is the identity on an already-normalized name, provided the
name does not end in a digits-단지 or digits-차 suffix. -/
theorem normalize_fix {s : List Char}
    (h1 : endsDigitsPat ['단', '지'] (_normalize_name s) = false)
    (h2 : endsDigitsPat ['차'] (_normalize_name s) = false) :
    _normalize_name (_normalize_name s) = _normalize_name s := by
  set t := _normalize_name s with ht
  have hword : ∀ c ∈ t, isWordChar c = true := fun c hc => (mem_normalize (ht ▸ hc)).1
  have hlow : ∀ c ∈ t, c.toLower = c := fun c hc => (mem_normalize (ht ▸ hc)).2
  show _normalize_name t = t
  unfold _normalize_name
  rw [removeParens_of_no_paren (fun c hc => isWordChar_ne_lparen (hword c hc))]
  rw [stripDigitsSuffix_of_not_ends h1, stripDigitsSuffix_of_not_ends h2]
  have hmap : pyLower t = t := by
    unfold pyLower
    rw [List.map_congr_left hlow]
    exact List.map_id t
  rw [hmap]
  rw [List.filter_eq_self.mpr hword]
  exact strip_of_no_space (fun c hc => isWordChar_not_space (hword c hc))

/-- Self-scoring a non-empty normalized name gives the exact-match score. -/
theorem score_self {t : List Char} (h : t ≠ []) :
    _calc_match_score t t = 100 := by
  unfold _calc_match_score
  simp [h]

end KbClient

/-- Claim C7, corrected: the KB name normalizer is not idempotent in general
(see the counterexample), but it is idempotent for every string whose
normalized form does not end in a digits+단지 or digits+차 suffix, and scoring
a non-empty normalized name against itself gives 100. -/
theorem C7_normalizer_stability :
    (∀ s : List Char,
      PyStr.endsDigitsPat ['단', '지'] (KbClient._normalize_name s) = false →
      PyStr.endsDigitsPat ['차'] (KbClient._normalize_name s) = false →
      KbClient._normalize_name (KbClient._normalize_name s) =
        KbClient._normalize_name s) ∧
    (∀ s : List Char, KbClient._normalize_name s ≠ [] →
      KbClient._calc_match_score (KbClient._normalize_name s)
        (KbClient._normalize_name s) = 100) :=
  ⟨fun _ h1 h2 => KbClient.normalize_fix h1 h2,
   fun _ h => KbClient.score_self h⟩

/-- Claim C7 as stated is false: normalizing "2차!" gives "2차" (the trailing
`차` pattern is shielded by the `!` until the character filter runs), and a
second normalization strips it to the empty string. -/
theorem C7_counterexample :
    ¬ (KbClient._normalize_name (KbClient._normalize_name "2차!".toList) =
        KbClient._normalize_name "2차!".toList) := by
  decide

/-- Witness for C7: both amended conjuncts discharged at "래미안(1단지)". -/
theorem C7_witness :
    (PyStr.endsDigitsPat ['단', '지'] (KbClient._normalize_name "래미안(1단지)".toList) = false ∧
     PyStr.endsDigitsPat ['차'] (KbClient._normalize_name "래미안(1단지)".toList) = false ∧
     KbClient._normalize_name (KbClient._normalize_name "래미안(1단지)".toList) =
       KbClient._normalize_name "래미안(1단지)".toList) ∧
    (KbClient._normalize_name "래미안(1단지)".toList ≠ [] ∧
     KbClient._calc_match_score (KbClient._normalize_name "래미안(1단지)".toList)
       (KbClient._normalize_name "래미안(1단지)".toList) = 100) :=
  ⟨⟨by decide, by decide,
    C7_normalizer_stability.1 "래미안(1단지)".toList (by decide) (by decide)⟩,
   ⟨by decide,
    C7_normalizer_stability.2 "래미안(1단지)".toList (by decide)⟩⟩


namespace PyStr

theorem digit_not_space {c : Char} (h : c.isDigit = true) : isPySpace c = false := by
  have e1 : c ≠ ' ' := fun he => absurd (he ▸ h) (by decide)
  have e2 : c ≠ '\t' := fun he => absurd (he ▸ h) (by decide)
  have e3 : c ≠ '\n' := fun he => absurd (he ▸ h) (by decide)
  have e4 : c ≠ '\r' := fun he => absurd (he ▸ h) (by decide)
  have e5 : c ≠ '\x0b' := fun he => absurd (he ▸ h) (by decide)
  have e6 : c ≠ '\x0c' := fun he => absurd (he ▸ h) (by decide)
  simp [isPySpace, e1, e2, e3, e4, e5, e6]

/-- `strip` is the identity when the edge characters are not whitespace. -/
theorem strip_edges {s : List Char}
    (h1 : ∀ c, s.head? = some c → isPySpace c = false)
    (h2 : ∀ c, s.getLast? = some c → isPySpace c = false) : strip s = s := by
  unfold strip
  have hd : s.dropWhile isPySpace = s := by
    cases s with
    | nil => rfl
    | cons c cs => simp [List.dropWhile, h1 c rfl]
  rw [hd]
  have hr : s.reverse.dropWhile isPySpace = s.reverse := by
    cases hrev : s.reverse with
    | nil => rfl
    | cons c cs =>
        have hc : s.getLast? = some c := by
          rw [← List.head?_reverse, hrev]
          rfl
        simp [List.dropWhile, h2 c hc]
  rw [hr, List.reverse_reverse]

theorem takeWhile_append_stop {p : Char → Bool} :
    ∀ {l1 : List Char}, (∀ c ∈ l1, p c = true) → ∀ {x : Char}, p x = false →
      ∀ (l2 : List Char), (l1 ++ x :: l2).takeWhile p = l1 := by
  intro l1
  induction l1 with
  | nil => intro _ x hx l2; simp [List.takeWhile, hx]
  | cons c cs ih =>
      intro h x hx l2
      have hc : p c = true := h c (by simp)
      simp only [List.cons_append, List.takeWhile_cons, hc, if_true]
      rw [ih (fun d hd => h d (by simp [hd])) hx l2]

theorem dropWhile_append_stop {p : Char → Bool} :
    ∀ {l1 : List Char}, (∀ c ∈ l1, p c = true) → ∀ {x : Char}, p x = false →
      ∀ (l2 : List Char), (l1 ++ x :: l2).dropWhile p = x :: l2 := by
  intro l1
  induction l1 with
  | nil => intro _ x hx l2; simp [List.dropWhile, hx]
  | cons c cs ih =>
      intro h x hx l2
      have hc : p c = true := h c (by simp)
      simp only [List.cons_append, List.dropWhile_cons, hc, if_true]
      exact ih (fun d hd => h d (by simp [hd])) hx l2

theorem pyParseInt_digits {s : List Char} (hne : s ≠ []) (hd : s.all Char.isDigit = true) :
    pyParseInt s = some (digitsVal s : Int) := by
  match s, hne with
  | c :: cs, _ =>
      have hc : c.isDigit = true := by
        simp only [List.all_cons, Bool.and_eq_true] at hd
        exact hd.1
      have h1 : c ≠ '-' := fun he => absurd (he ▸ hc) (by decide)
      have h2 : c ≠ '+' := fun he => absurd (he ▸ hc) (by decide)
      simp [pyParseInt, h1, h2, hd]

end PyStr

namespace NaverCrawl

open PyStr

theorem digit_ne_eok {c : Char} (h : c.isDigit = true) : c ≠ '억' :=
  fun he => absurd (he ▸ h) (by decide)

theorem digit_ne_comma {c : Char} (h : c.isDigit = true) : c ≠ ',' :=
  fun he => absurd (he ▸ h) (by decide)

/-- A digits-or-commas character with the commas removed is a digit. -/
theorem digitComma_filter_digits {yd : List Char}
    (h : yd.all (fun c => c.isDigit || c = ',') = true) :
    (yd.filter (fun c => c ≠ ',')).all Char.isDigit = true := by
  rw [List.all_eq_true] at h ⊢
  intro c hc
  have hm := List.mem_of_mem_filter hc
  have hk := List.of_mem_filter hc
  have hor := h c hm
  simp only [Bool.or_eq_true, decide_eq_true_eq] at hor
  rcases hor with hdig | hcomma
  · exact hdig
  · exact absurd (by simpa using hk) (by simp [hcomma])

theorem dropWhile_digits {l : List Char} (h : ∀ c ∈ l, c.isDigit = true) :
    l.dropWhile isPySpace = l := by
  cases hl : l with
  | nil => rfl
  | cons c cs =>
      have hc : c ∈ l := by rw [hl]; simp
      exact List.dropWhile_cons_of_neg (by simp [digit_not_space (h c hc)])

theorem strip_digits {l : List Char} (h : ∀ c ∈ l, c.isDigit = true) :
    strip l = l := by
  unfold strip
  rw [dropWhile_digits h]
  cases hrev : l.reverse with
  | nil =>
      have hl : l = [] := by simpa using congrArg List.reverse hrev
      simp [hl]
  | cons c cs =>
      have hc : c ∈ l := by
        have hm : c ∈ l.reverse := by rw [hrev]; simp
        rwa [List.mem_reverse] at hm
      rw [List.dropWhile_cons_of_neg (by simp [digit_not_space (h c hc)]),
        ← hrev, List.reverse_reverse]

/-- The general `X억 Y` law of `_parse_price`: a digit run, `억`, a space and
a digits-with-commas remainder parse to `X·10000 + Y` with `Y` read from the
comma-stripped remainder (units of 10,000 KRW). -/
theorem parse_price_eok_rest {xd yd : List Char}
    (hx : xd ≠ []) (hxd : xd.all Char.isDigit = true)
    (hyd : yd ≠ []) (hydc : yd.all (fun c => c.isDigit || c = ',') = true)
    (hyd2 : yd.filter (fun c => c ≠ ',') ≠ []) :
    _parse_price (some (xd ++ '억' :: ' ' :: yd)) =
      some ((digitsVal xd : Int) * 10000 +
        (digitsVal (yd.filter (fun c => c ≠ ',')) : Int)) := by
  have hxd' : ∀ c ∈ xd, c.isDigit = true := List.all_eq_true.mp hxd
  have hydc' : ∀ c ∈ yd, (c.isDigit || c = ',') = true := List.all_eq_true.mp hydc
  set yd2 := yd.filter (fun c => c ≠ ',') with hyd2def
  have hyd2d : yd2.all Char.isDigit = true := digitComma_filter_digits hydc
  have hyd2d' : ∀ c ∈ yd2, c.isDigit = true := List.all_eq_true.mp hyd2d
  have hne : xd ++ '억' :: ' ' :: yd ≠ [] := by cases xd <;> simp
  have hstrip : strip (xd ++ '억' :: ' ' :: yd) = xd ++ '억' :: ' ' :: yd := by
    apply strip_edges
    · intro c hc
      cases xd with
      | nil => exact absurd rfl hx
      | cons a l =>
          simp only [List.cons_append, List.head?_cons, Option.some.injEq] at hc
          subst hc
          exact digit_not_space (hxd' a (by simp))
    · intro c hc
      rw [List.getLast?_append, List.getLast?_cons_cons] at hc
      have hsome : (' ' :: yd).getLast? = yd.getLast? := by
        cases yd with
        | nil => exact absurd rfl hyd
        | cons b m => rw [List.getLast?_cons_cons]
      rw [hsome, Option.or_of_isSome (List.getLast?_isSome.mpr hyd)] at hc
      have hcm : c ∈ yd := List.mem_of_getLast?_eq_some hc
      have hor := hydc' c hcm
      simp only [Bool.or_eq_true, decide_eq_true_eq] at hor
      rcases hor with hdig | hcomma
      · exact digit_not_space hdig
      · subst hcomma; decide
  have hcommas : removeCommas (xd ++ '억' :: ' ' :: yd) = xd ++ '억' :: ' ' :: yd2 := by
    have hfx : xd.filter (fun c => decide (c ≠ ',')) = xd :=
      List.filter_eq_self.mpr (fun c hc => by
        simpa using digit_ne_comma (hxd' c hc))
    unfold removeCommas
    rw [List.filter_append, hfx,
      List.filter_cons_of_pos (by decide), List.filter_cons_of_pos (by decide)]
  have hmem : '억' ∈ xd ++ '억' :: ' ' :: yd2 := by simp
  have hxne : ∀ c ∈ xd, (fun c => decide (c ≠ '억')) c = true := fun c hc => by
    simpa using digit_ne_eok (hxd' c hc)
  have htake : (xd ++ '억' :: ' ' :: yd2).takeWhile (fun c => decide (c ≠ '억')) = xd :=
    takeWhile_append_stop hxne (by simp) _
  have hdrop : (xd ++ '억' :: ' ' :: yd2).dropWhile (fun c => decide (c ≠ '억')) =
      '억' :: ' ' :: yd2 :=
    dropWhile_append_stop hxne (by simp) _
  have hyd2ne : ∀ c ∈ (' ' :: yd2), (fun c => decide (c ≠ '억')) c = true := by
    intro c hc
    rcases List.mem_cons.mp hc with hsp | hm
    · subst hsp; decide
    · simpa using digit_ne_eok (hyd2d' c hm)
  have htake2 : (' ' :: yd2).takeWhile (fun c => decide (c ≠ '억')) = ' ' :: yd2 :=
    List.takeWhile_eq_self_iff.mpr (by
      intro x hx2
      simpa using hyd2ne x hx2)
  have hstrip2 : strip (' ' :: yd2) = yd2 := by
    unfold strip
    rw [List.dropWhile_cons_of_pos (by decide)]
    rw [dropWhile_digits hyd2d']
    cases hrev : yd2.reverse with
    | nil =>
        exact absurd (by simpa using congrArg List.reverse hrev) hyd2
    | cons c cs =>
        have hc : c ∈ yd2 := by
          have hm : c ∈ yd2.reverse := by rw [hrev]; simp
          rwa [List.mem_reverse] at hm
        rw [List.dropWhile_cons_of_neg (by simp [digit_not_space (hyd2d' c hc)]),
          ← hrev, List.reverse_reverse]
  have hstripx : strip xd = xd := strip_digits hxd'
  simp only [_parse_price]
  rw [if_neg (by simp [hne])]
  rw [hstrip, hcommas]
  rw [if_pos hmem]
  rw [htake, hdrop]
  simp only [List.drop_succ_cons, List.drop_zero]
  rw [htake2, hstripx, hstrip2]
  rw [pyParseInt_digits hx hxd]
  simp [hyd2, pyParseInt_digits hyd2 hyd2d]

/-- The bare `X억` law of `_parse_price`. -/
theorem parse_price_eok_only {xd : List Char}
    (hx : xd ≠ []) (hxd : xd.all Char.isDigit = true) :
    _parse_price (some (xd ++ ['억'])) = some ((digitsVal xd : Int) * 10000) := by
  have hxd' : ∀ c ∈ xd, c.isDigit = true := List.all_eq_true.mp hxd
  have hne : xd ++ ['억'] ≠ [] := by cases xd <;> simp
  have hstrip : strip (xd ++ ['억']) = xd ++ ['억'] := by
    apply strip_edges
    · intro c hc
      cases xd with
      | nil => exact absurd rfl hx
      | cons a l =>
          simp only [List.cons_append, List.head?_cons, Option.some.injEq] at hc
          subst hc
          exact digit_not_space (hxd' a (by simp))
    · intro c hc
      rw [List.getLast?_append] at hc
      simp only [List.getLast?_singleton, Option.or_some, Option.some.injEq] at hc
      subst hc
      decide
  have hcommas : removeCommas (xd ++ ['억']) = xd ++ ['억'] := by
    have hfx : xd.filter (fun c => decide (c ≠ ',')) = xd :=
      List.filter_eq_self.mpr (fun c hc => by
        simpa using digit_ne_comma (hxd' c hc))
    unfold removeCommas
    rw [List.filter_append, hfx, List.filter_cons_of_pos (by decide),
      List.filter_nil]
  have hxne : ∀ c ∈ xd, (fun c => decide (c ≠ '억')) c = true := fun c hc => by
    simpa using digit_ne_eok (hxd' c hc)
  have htake : (xd ++ ['억']).takeWhile (fun c => decide (c ≠ '억')) = xd :=
    takeWhile_append_stop hxne (by simp) []
  have hdrop : (xd ++ ['억']).dropWhile (fun c => decide (c ≠ '억')) = ['억'] :=
    dropWhile_append_stop hxne (by simp) []
  have hstripx : strip xd = xd := strip_digits hxd'
  simp only [_parse_price]
  rw [if_neg (by simp [hne])]
  rw [hstrip, hcommas]
  rw [if_pos (by simp)]
  rw [htake, hdrop]
  simp only [List.drop_succ_cons, List.drop_zero]
  rw [hstripx]
  rw [pyParseInt_digits hx hxd]
  simp [strip]

/-- Numeric floor strings parse to their value. -/
theorem parse_floor_digits {s : List Char} (hne : s ≠ [])
    (hd : s.all Char.isDigit = true) :
    _parse_floor (some s) = some (digitsVal s : Int) := by
  have hd' : ∀ c ∈ s, c.isDigit = true := List.all_eq_true.mp hd
  have hfilter : s.filter (fun c => decide (c ≠ '층')) = s :=
    List.filter_eq_self.mpr (fun c hc => by
      simpa using (fun he => absurd (he ▸ hd' c hc) (by decide) : c ≠ '층'))
  have hstrip : strip s = s := strip_digits hd'
  have h1 : s ≠ ['저'] := by
    intro he
    rw [he] at hd
    exact absurd hd (by decide)
  have h2 : s ≠ ['중'] := by
    intro he
    rw [he] at hd
    exact absurd hd (by decide)
  have h3 : s ≠ ['고'] := by
    intro he
    rw [he] at hd
    exact absurd hd (by decide)
  simp only [_parse_floor]
  rw [hfilter, hstrip]
  rw [if_neg (by simp [h1, h2, h3, hne])]
  exact pyParseInt_digits hne hd

end NaverCrawl

namespace NaverCrawl

/-- A record whose price string is empty is dropped by the listing upsert. -/
theorem upsert_listing_drops_empty_price (db : CrawlDB) (a : ArticleData)
    (cid : Int) (h1 : a.articleNo ≠ []) (h2 : a.dealOrWarrantPrc = []) :
    _upsert_listing db a cid = (db, false) := by
  simp [_upsert_listing, h1, h2, _parse_price]

end NaverCrawl

/-- Claim C6, corrected: price parsing follows the `X억 Y` law in 10,000-KRW
units and floor parsing maps numeric strings to integers and the coarse
저/중/고 tokens to null — but an empty or malformed listing price parses to
`none` (Python `None`), not 0, and the listing record is dropped rather than
stored with price 0. -/
theorem C6_price_floor_parsing :
    (∀ xd yd : List Char, xd ≠ [] → xd.all Char.isDigit = true →
      yd ≠ [] → yd.all (fun c => c.isDigit || c = ',') = true →
      yd.filter (fun c => c ≠ ',') ≠ [] →
      NaverCrawl._parse_price (some (xd ++ '억' :: ' ' :: yd)) =
        some ((PyStr.digitsVal xd : Int) * 10000 +
          (PyStr.digitsVal (yd.filter (fun c => c ≠ ',')) : Int))) ∧
    (∀ xd : List Char, xd ≠ [] → xd.all Char.isDigit = true →
      NaverCrawl._parse_price (some (xd ++ ['억'])) =
        some ((PyStr.digitsVal xd : Int) * 10000)) ∧
    NaverCrawl._parse_price (some "12억 5,000".toList) = some 125000 ∧
    NaverCrawl._parse_price (some "3억".toList) = some 30000 ∧
    NaverCrawl._parse_price (some "5,500".toList) = some 5500 ∧
    NaverCrawl._parse_price (some "".toList) = none ∧
    NaverCrawl._parse_price (some "abc".toList) = none ∧
    NaverCrawl._parse_price none = none ∧
    (∀ (db : NaverCrawl.CrawlDB) (a : NaverCrawl.ArticleData) (cid : Int),
      a.articleNo ≠ [] → a.dealOrWarrantPrc = [] →
      NaverCrawl._upsert_listing db a cid = (db, false)) ∧
    (∀ s : List Char, s ≠ [] → s.all Char.isDigit = true →
      NaverCrawl._parse_floor (some s) = some (PyStr.digitsVal s : Int)) ∧
    NaverCrawl._parse_floor (some "저".toList) = none ∧
    NaverCrawl._parse_floor (some "중".toList) = none ∧
    NaverCrawl._parse_floor (some "고".toList) = none ∧
    NaverCrawl._parse_floor
      (some ("15/20".toList.takeWhile (fun c => c ≠ '/'))) = some 15 :=
  ⟨fun _ _ hx hxd hyd hydc hyd2 =>
      NaverCrawl.parse_price_eok_rest hx hxd hyd hydc hyd2,
   fun _ hx hxd => NaverCrawl.parse_price_eok_only hx hxd,
   by decide, by decide, by decide, by decide, by decide, by decide,
   fun db a cid h1 h2 =>
      NaverCrawl.upsert_listing_drops_empty_price db a cid h1 h2,
   fun _ hne hd => NaverCrawl.parse_floor_digits hne hd,
   by decide, by decide, by decide, by decide⟩

/-- Claim C6 as stated is false: the empty listings price string parses to
`None` (and the record is dropped), not to 0. -/
theorem C6_counterexample :
    ¬ (NaverCrawl._parse_price (some "".toList) = some 0) := by
  decide

/-- Witness for C6: the general laws applied at "12억 5,000" and "3억" and a
numeric floor. -/
theorem C6_witness :
    NaverCrawl._parse_price (some ("12".toList ++ '억' :: ' ' :: "5,000".toList)) =
      some ((PyStr.digitsVal "12".toList : Int) * 10000 +
        (PyStr.digitsVal ("5,000".toList.filter (fun c => c ≠ ',')) : Int)) ∧
    NaverCrawl._parse_price (some ("3".toList ++ ['억'])) =
      some ((PyStr.digitsVal "3".toList : Int) * 10000) ∧
    NaverCrawl._parse_floor (some "15".toList) = some (PyStr.digitsVal "15".toList : Int) :=
  ⟨C6_price_floor_parsing.1 "12".toList "5,000".toList (by decide) (by decide)
      (by decide) (by decide) (by decide),
   (C6_price_floor_parsing.2.1) "3".toList (by decide) (by decide),
   (C6_price_floor_parsing.2.2.2.2.2.2.2.2.2.1) "15".toList (by decide) (by decide)⟩

/-- Claim C9, corrected: every fetch issued by the daily transactions job
uses the single `deal_ymd` computed from the wall clock — the current
calendar month only — with exactly one fetch per configured region with
non-blank names, and the job is registered with a daily 02:00 cron trigger.
The previous calendar month is not collected. -/
theorem C9_transaction_job_current_month (oracle : Scheduler.TxOracle)
    (y m : Nat) (regions : List Scheduler.Region) (db : TxService.TxDB) :
    (∀ mo ∈ (Scheduler.run_real_transaction_job oracle y m regions db).2.2,
       mo = Scheduler.formatYYYYMM y m) ∧
    (Scheduler.run_real_transaction_job oracle y m regions db).2.2.length =
      (regions.filter
        (fun r => !(decide (r.sido = []) || decide (r.sigungu = [])))).length ∧
    ({ id := "real_transaction_job".toList
       trigger := Scheduler.Trigger.cron 2 0
       maxInstances := 1 } : Scheduler.JobSpec) ∈ Scheduler.start_scheduler_jobs := by
  have main : ∀ (rs : List Scheduler.Region)
      (acc : TxService.TxDB × List Scheduler.JobSummary × List (List Char)),
      (∀ mo ∈ acc.2.2, mo = Scheduler.formatYYYYMM y m) →
      (∀ mo ∈ (rs.foldl
          (fun acc region =>
            if region.sido = [] ∨ region.sigungu = [] then acc
            else
              let res := Scheduler.collect_and_save oracle acc.1 region.sido
                region.sigungu (Scheduler.formatYYYYMM y m)
              (res.1, acc.2.1 ++ [res.2],
                acc.2.2 ++ [Scheduler.formatYYYYMM y m])) acc).2.2,
        mo = Scheduler.formatYYYYMM y m) ∧
      (rs.foldl
          (fun acc region =>
            if region.sido = [] ∨ region.sigungu = [] then acc
            else
              let res := Scheduler.collect_and_save oracle acc.1 region.sido
                region.sigungu (Scheduler.formatYYYYMM y m)
              (res.1, acc.2.1 ++ [res.2],
                acc.2.2 ++ [Scheduler.formatYYYYMM y m])) acc).2.2.length =
        acc.2.2.length +
          (rs.filter
            (fun r => !(decide (r.sido = []) || decide (r.sigungu = [])))).length := by
    intro rs
    induction rs with
    | nil => intro acc h; exact ⟨h, by simp⟩
    | cons r rs ih =>
        intro acc h
        by_cases hv : r.sido = [] ∨ r.sigungu = []
        · have hfilter : (fun r => !(decide (r.sido = []) ||
              decide (r.sigungu = []))) r = false := by
            rcases hv with h1 | h1 <;> simp [h1]
          simp only [List.foldl_cons, if_pos hv]
          refine ⟨(ih acc h).1, ?_⟩
          rw [(ih acc h).2, List.filter_cons_of_neg (by simp [hfilter])]
        · have hfilter : (fun r => !(decide (r.sido = []) ||
              decide (r.sigungu = []))) r = true := by
            push_neg at hv
            simp [hv.1, hv.2]
          simp only [List.foldl_cons, if_neg hv]
          have h2 : ∀ mo ∈
              ((Scheduler.collect_and_save oracle acc.1 r.sido r.sigungu
                  (Scheduler.formatYYYYMM y m)).1,
                acc.2.1 ++ [(Scheduler.collect_and_save oracle acc.1 r.sido
                  r.sigungu (Scheduler.formatYYYYMM y m)).2],
                acc.2.2 ++ [Scheduler.formatYYYYMM y m]).2.2,
              mo = Scheduler.formatYYYYMM y m := by
            intro mo hmo
            rcases List.mem_append.mp hmo with hmo1 | hmo1
            · exact h mo hmo1
            · simpa using hmo1
          refine ⟨(ih _ h2).1, ?_⟩
          rw [(ih _ h2).2, List.filter_cons_of_pos (by simp [hfilter] )]
          simp only [List.length_append, List.length_cons, List.length_nil]
          omega
  refine ⟨?_, ?_, by decide⟩
  · exact (main regions (db, [], []) (by simp)).1
  · have hlen := (main regions (db, [], []) (by simp)).2
    simpa using hlen

/-- Claim C9 as stated is false: with the clock at 2026-10, the job's fetch
log holds only the current month 202610; the previous month 202609 is never
requested. -/
theorem C9_counterexample :
    (Scheduler.run_real_transaction_job ⟨fun _ _ _ => []⟩ 2026 10
        [⟨"서울특별시".toList, "강남구".toList⟩] ⟨[], [], 1⟩).2.2 =
      ["202610".toList] ∧
    "202609".toList ∉
      (Scheduler.run_real_transaction_job ⟨fun _ _ _ => []⟩ 2026 10
        [⟨"서울특별시".toList, "강남구".toList⟩] ⟨[], [], 1⟩).2.2 := by
  constructor
  · rfl
  · decide

/-- Witness for C9: the amended theorem applied to a one-region run. -/
theorem C9_witness :
    (∀ mo ∈ (Scheduler.run_real_transaction_job ⟨fun _ _ _ => []⟩ 2026 10
        [⟨"서울특별시".toList, "강남구".toList⟩] ⟨[], [], 1⟩).2.2,
      mo = Scheduler.formatYYYYMM 2026 10) ∧
    (Scheduler.run_real_transaction_job ⟨fun _ _ _ => []⟩ 2026 10
        [⟨"서울특별시".toList, "강남구".toList⟩] ⟨[], [], 1⟩).2.2.length =
      ([⟨"서울특별시".toList, "강남구".toList⟩].filter
        (fun (r : Scheduler.Region) =>
          !(decide (r.sido = []) || decide (r.sigungu = [])))).length :=
  ⟨(C9_transaction_job_current_month ⟨fun _ _ _ => []⟩ 2026 10
      [⟨"서울특별시".toList, "강남구".toList⟩] ⟨[], [], 1⟩).1,
   (C9_transaction_job_current_month ⟨fun _ _ _ => []⟩ 2026 10
      [⟨"서울특별시".toList, "강남구".toList⟩] ⟨[], [], 1⟩).2.1⟩

namespace KbService

open Store Models

theorem kbKeyIs_update (pd : PriceData) (now : Int) (cid2 : Int) (a2 : ℚ)
    (r : KBPrice) : kbKeyIs cid2 a2 (kbPriceUpdate pd now r) = kbKeyIs cid2 a2 r := by
  simp [kbKeyIs, kbPriceUpdate]

theorem upsertKbStep_filter_ne {cid : Int} {now : Int} {acc : List KBPrice × Nat}
    {pd : PriceData} {cid2 : Int} {area2 : ℚ}
    (h : cid2 ≠ cid ∨ ∀ a : ℚ, pd.areaSqm = some a → a ≠ area2) :
    (upsertKbStep cid now acc pd).1.filter (kbKeyIs cid2 area2) =
      acc.1.filter (kbKeyIs cid2 area2) := by
  unfold upsertKbStep
  split
  · rfl
  · rename_i a hpd
    have hkey : ¬ (cid2 = cid ∧ area2 = a) := by
      rcases h with h1 | h1
      · exact fun hc => h1 hc.1
      · exact fun hc => (h1 a hpd) hc.2.symm
    by_cases hany : acc.1.any (kbKeyIs cid a) = true
    · rw [if_pos hany]
      apply updateFirst_filter_of_disjoint
      · exact fun r => kbKeyIs_update pd now cid2 area2 r
      · intro r hr
        have hr2 : r.complexId = cid ∧ r.areaSqm = a := by
          simpa [kbKeyIs] using hr
        by_contra hq
        rw [Bool.not_eq_false] at hq
        have hq2 : r.complexId = cid2 ∧ r.areaSqm = area2 := by
          simpa [kbKeyIs] using hq
        exact hkey ⟨hq2.1.symm.trans hr2.1, hq2.2.symm.trans hr2.2⟩
    · rw [if_neg hany]
      rw [List.filter_append]
      have hnew : kbKeyIs cid2 area2
          { complexId := cid, areaSqm := a, priceLower := pd.priceLower,
            priceMid := pd.priceMid, priceUpper := pd.priceUpper,
            updatedAt := now } = false := by
        by_contra hq
        rw [Bool.not_eq_false] at hq
        have hq2 : cid = cid2 ∧ a = area2 := by
          simpa [kbKeyIs] using hq
        exact hkey ⟨hq2.1.symm, hq2.2.symm⟩
      simp [hnew]

theorem upsert_foldl_filter_ne {cid : Int} {now : Int} {cid2 : Int} {area2 : ℚ} :
    ∀ (pds : List PriceData) (acc : List KBPrice × Nat),
      (∀ pd ∈ pds, cid2 ≠ cid ∨ ∀ a : ℚ, pd.areaSqm = some a → a ≠ area2) →
      (pds.foldl (upsertKbStep cid now) acc).1.filter (kbKeyIs cid2 area2) =
        acc.1.filter (kbKeyIs cid2 area2) := by
  intro pds
  induction pds with
  | nil => intro acc _; rfl
  | cons pd pds ih =>
      intro acc h
      rw [List.foldl_cons]
      rw [ih _ (fun q hq => h q (by simp [hq]))]
      exact upsertKbStep_filter_ne (h pd (by simp))

theorem any_of_filter_single {α : Type} {p : α → Bool} {l : List α} {a : α}
    (h : l.filter p = [a]) : l.any p = true := by
  have ha : a ∈ l.filter p := by rw [h]; simp
  rw [List.any_eq_true]
  exact ⟨a, List.mem_of_mem_filter ha, List.of_mem_filter ha⟩

theorem upsertKbStep_at_key {cid : Int} {now : Int} {acc : List KBPrice × Nat}
    {pd : PriceData} {a : ℚ} {r : KBPrice}
    (hpd : pd.areaSqm = some a)
    (hfil : acc.1.filter (kbKeyIs cid a) = [r]) :
    (upsertKbStep cid now acc pd).1.filter (kbKeyIs cid a) =
      [kbPriceUpdate pd now r] := by
  unfold upsertKbStep
  split
  · rename_i heq
    rw [hpd] at heq
    cases heq
  · rename_i a2 heq
    rw [hpd] at heq
    injection heq with heq2
    subst heq2
    rw [if_pos (any_of_filter_single hfil)]
    exact updateFirst_filter_single (fun x => kbKeyIs_update pd now cid a x) hfil

end KbService

/-- Claim C10, confirmed: when a `KBPrice` row exists for (complex_id,
area_sqm), the upsert overwrites each price field only when the incoming
value is non-null (`updIfSome`), so a stored non-null price is never nulled,
and rows for every other key are left unchanged by the call. -/
theorem C10_upsert_kb_prices_frame (db : List Models.KBPrice) (cid : Int)
    (prices : List KbService.PriceData) (now : Int) :
    (∀ (cid2 : Int) (area2 : ℚ),
      cid2 ≠ cid ∨ area2 ∉ prices.filterMap (fun pd => pd.areaSqm) →
      (KbService._upsert_kb_prices db cid prices now).1.filter
          (KbService.kbKeyIs cid2 area2) =
        db.filter (KbService.kbKeyIs cid2 area2)) ∧
    (∀ pd ∈ prices, ∀ a : ℚ, pd.areaSqm = some a →
      (prices.filterMap (fun pd => pd.areaSqm)).count a = 1 →
      ∀ r : Models.KBPrice, db.filter (KbService.kbKeyIs cid a) = [r] →
      (KbService._upsert_kb_prices db cid prices now).1.filter
          (KbService.kbKeyIs cid a) =
        [{ r with
            priceLower := Store.updIfSome pd.priceLower r.priceLower
            priceMid := Store.updIfSome pd.priceMid r.priceMid
            priceUpper := Store.updIfSome pd.priceUpper r.priceUpper
            updatedAt := now }]) := by
  constructor
  · intro cid2 area2 h
    unfold KbService._upsert_kb_prices
    apply KbService.upsert_foldl_filter_ne
    intro pd hpd
    rcases h with h1 | h1
    · exact Or.inl h1
    · refine Or.inr (fun a ha hae => h1 ?_)
      rw [← hae]
      exact List.mem_filterMap.mpr ⟨pd, hpd, ha⟩
  · intro pd hpd a ha hcount r hfil
    rcases List.append_of_mem hpd with ⟨l1, l2, hsplit⟩
    subst hsplit
    have hcnt : ((l1.filterMap (fun q => q.areaSqm)).count a) +
        ((pd :: l2).filterMap (fun q => q.areaSqm)).count a = 1 := by
      rw [← List.count_append, ← List.filterMap_append]
      exact hcount
    have hcons : (pd :: l2).filterMap (fun q => q.areaSqm) =
        a :: l2.filterMap (fun q => q.areaSqm) := by
      rw [List.filterMap_cons, ha]
    have hcnt2 : ((pd :: l2).filterMap (fun q => q.areaSqm)).count a =
        1 + (l2.filterMap (fun q => q.areaSqm)).count a := by
      rw [hcons]
      simp [List.count_cons]
      omega
    have hl1 : (l1.filterMap (fun q => q.areaSqm)).count a = 0 := by omega
    have hl2 : (l2.filterMap (fun q => q.areaSqm)).count a = 0 := by
      omega
    have hl1' : ∀ q ∈ l1, (cid ≠ cid ∨ ∀ a2 : ℚ, q.areaSqm = some a2 → a2 ≠ a) := by
      intro q hq
      refine Or.inr (fun a2 ha2 hae => ?_)
      subst hae
      have : a2 ∈ l1.filterMap (fun q => q.areaSqm) :=
        List.mem_filterMap.mpr ⟨q, hq, ha2⟩
      rw [← List.count_pos_iff] at this
      omega
    have hl2' : ∀ q ∈ l2, (cid ≠ cid ∨ ∀ a2 : ℚ, q.areaSqm = some a2 → a2 ≠ a) := by
      intro q hq
      refine Or.inr (fun a2 ha2 hae => ?_)
      subst hae
      have : a2 ∈ l2.filterMap (fun q => q.areaSqm) :=
        List.mem_filterMap.mpr ⟨q, hq, ha2⟩
      rw [← List.count_pos_iff] at this
      omega
    unfold KbService._upsert_kb_prices
    rw [List.foldl_append, List.foldl_cons]
    rw [KbService.upsert_foldl_filter_ne l2 _ (by
      intro q hq
      rcases hl2' q hq with h1 | h1
      · exact Or.inl h1
      · exact Or.inr h1)]
    have hfil1 : ((l1.foldl (KbService.upsertKbStep cid now) (db, 0)).1.filter
        (KbService.kbKeyIs cid a)) = [r] := by
      rw [KbService.upsert_foldl_filter_ne l1 _ hl1']
      exact hfil
    exact KbService.upsertKbStep_at_key ha hfil1

/-- Witness for C10: a one-row table updated by a partial record keeps its
stored mid price and only refreshes the non-null fields; another key is
untouched. -/
theorem C10_witness :
    ((2 : Int) ≠ 1 ∨ (50 : ℚ) ∉
      ([⟨some 84, some 1000, none, some 3000⟩] :
        List KbService.PriceData).filterMap (fun pd => pd.areaSqm)) ∧
    (KbService._upsert_kb_prices
        [{ complexId := 1, areaSqm := 84, priceLower := some 900,
           priceMid := some 2000, priceUpper := none, updatedAt := 0 }]
        1 [⟨some 84, some 1000, none, some 3000⟩] 7).1.filter
      (KbService.kbKeyIs 2 50) =
      ([{ complexId := 1, areaSqm := 84, priceLower := some 900,
          priceMid := some 2000, priceUpper := none, updatedAt := 0 }] :
        List Models.KBPrice).filter (KbService.kbKeyIs 2 50) ∧
    (KbService._upsert_kb_prices
        [{ complexId := 1, areaSqm := 84, priceLower := some 900,
           priceMid := some 2000, priceUpper := none, updatedAt := 0 }]
        1 [⟨some 84, some 1000, none, some 3000⟩] 7).1.filter
      (KbService.kbKeyIs 1 84) =
      [{ complexId := 1, areaSqm := 84, priceLower := some 1000,
         priceMid := some 2000, priceUpper := some 3000, updatedAt := 7 }] :=
  ⟨by decide,
   (C10_upsert_kb_prices_frame
      [{ complexId := 1, areaSqm := 84, priceLower := some 900,
         priceMid := some 2000, priceUpper := none, updatedAt := 0 }]
      1 [⟨some 84, some 1000, none, some 3000⟩] 7).1 2 50 (by decide),
   (C10_upsert_kb_prices_frame
      [{ complexId := 1, areaSqm := 84, priceLower := some 900,
         priceMid := some 2000, priceUpper := none, updatedAt := 0 }]
      1 [⟨some 84, some 1000, none, some 3000⟩] 7).2
      ⟨some 84, some 1000, none, some 3000⟩ (by decide) 84 (by decide)
      (by decide)
      { complexId := 1, areaSqm := 84, priceLower := some 900,
        priceMid := some 2000, priceUpper := none, updatedAt := 0 }
      (by decide)⟩

namespace CompareService

open Store Models

theorem compKeyIs_update (mid : Int) (recent : RecentDeal) (rate : ℚ)
    (cid2 : Int) (a2 : ℚ) (c : ComplexComparison) :
    compKeyIs cid2 a2 (compUpdate mid recent rate c) = compKeyIs cid2 a2 c := by
  simp [compKeyIs, compUpdate]

/-- Rows with another key are untouched by one loop iteration. -/
theorem processKbRow_filter_ne {txs : List RealTransaction} {now : Int}
    {acc : List ComplexComparison × Nat × Nat} {kb : KBPrice}
    {cid2 : Int} {area2 : ℚ}
    (h : ¬ (kb.complexId = cid2 ∧ kb.areaSqm = area2)) :
    (processKbRow txs now acc kb).1.filter (compKeyIs cid2 area2) =
      acc.1.filter (compKeyIs cid2 area2) := by
  unfold processKbRow
  split
  · rfl
  · rename_i mid hmid
    split
    · rfl
    · rename_i recent hrecent
      by_cases hany : acc.1.any (compKeyIs kb.complexId kb.areaSqm) = true
      · rw [if_pos hany]
        apply updateFirst_filter_of_disjoint
        · exact fun c => compKeyIs_update mid recent _ cid2 area2 c
        · intro c hc
          have hc2 : c.complexId = kb.complexId ∧ c.areaSqm = kb.areaSqm := by
            simpa [compKeyIs] using hc
          by_contra hq
          rw [Bool.not_eq_false] at hq
          have hq2 : c.complexId = cid2 ∧ c.areaSqm = area2 := by
            simpa [compKeyIs] using hq
          exact h ⟨hc2.1.symm.trans hq2.1, hc2.2.symm.trans hq2.2⟩
      · rw [if_neg hany]
        rw [List.filter_append]
        have hnew : compKeyIs cid2 area2
            (compNewRow kb.complexId kb.areaSqm mid recent
              (discountRate mid recent.dealPrice)) = false := by
          by_contra hq
          rw [Bool.not_eq_false] at hq
          have hq2 : kb.complexId = cid2 ∧ kb.areaSqm = area2 := by
            simpa [compKeyIs, compNewRow] using hq
          exact h hq2
        simp [hnew]

/-- A skipped row (null mid or no recent deal) leaves the table unchanged. -/
theorem processKbRow_skip {txs : List RealTransaction} {now : Int}
    {acc : List ComplexComparison × Nat × Nat} {kb : KBPrice}
    (h : kb.priceMid = none ∨
      _get_recent_deal txs now kb.complexId kb.areaSqm 3 = none) :
    (processKbRow txs now acc kb).1 = acc.1 := by
  unfold processKbRow
  split
  · rfl
  · rename_i mid hmid
    split
    · rfl
    · rename_i recent hrecent
      rcases h with h1 | h1
      · rw [h1] at hmid; cases hmid
      · rw [h1] at hrecent; cases hrecent

/-- With no transaction in the window, `_get_recent_deal` returns nothing. -/
theorem recent_deal_none {txs : List RealTransaction} {now : Int}
    {cid : Int} {area tol : ℚ}
    (h : ∀ t ∈ txs, txMatches cid area tol (now - RECENT_DEAL_DAYS) t = false) :
    _get_recent_deal txs now cid area tol = none := by
  unfold _get_recent_deal
  have hfil : windowTxs txs now cid area tol = [] := by
    unfold windowTxs
    exact List.filter_eq_nil_iff.mpr (fun t ht => by simp [h t ht])
  rw [hfil]
  rfl

/-- The fold of the comparison pass preserves the rows of a key for which
every appraisal row is skipped or keyed elsewhere. -/
theorem comp_foldl_filter {txs : List RealTransaction} {now : Int}
    {cid : Int} {area : ℚ} :
    ∀ (kbs : List KBPrice) (acc : List ComplexComparison × Nat × Nat),
      (∀ kb ∈ kbs, ¬ (kb.complexId = cid ∧ kb.areaSqm = area) ∨
        kb.priceMid = none ∨
        _get_recent_deal txs now kb.complexId kb.areaSqm 3 = none) →
      ((kbs.foldl (processKbRow txs now) acc).1.filter (compKeyIs cid area)) =
        acc.1.filter (compKeyIs cid area) := by
  intro kbs
  induction kbs with
  | nil => intro acc _; rfl
  | cons kb kbs ih =>
      intro acc h
      rw [List.foldl_cons]
      rw [ih _ (fun q hq => h q (by simp [hq]))]
      rcases h kb (by simp) with h1 | h1
      · exact processKbRow_filter_ne h1
      · rw [processKbRow_skip h1]

end CompareService

/-- Claim C8, corrected: `update_all_comparisons` upserts rows only for keys
with a non-null appraisal mid and a transaction in the 90-day window; for
every other key the pass leaves the comparison rows exactly as they were —
in particular the table is not rewritten from scratch, so stale rows for
keys that no longer qualify survive the pass (see the counterexample). -/
theorem C8_comparison_existence (db : CompareService.CompDB) (now : Int)
    (cid : Int) (area : ℚ)
    (h : ∀ kb ∈ db.kbPrices, kb.complexId = cid → kb.areaSqm = area →
      kb.priceMid = none ∨
      ∀ t ∈ db.transactions,
        CompareService.txMatches cid area 3
          (now - CompareService.RECENT_DEAL_DAYS) t = false) :
    ((CompareService.update_all_comparisons db now).1.comparisons.filter
        (CompareService.compKeyIs cid area)) =
      db.comparisons.filter (CompareService.compKeyIs cid area) := by
  unfold CompareService.update_all_comparisons
  apply CompareService.comp_foldl_filter
  intro kb hkb
  by_cases hkey : kb.complexId = cid ∧ kb.areaSqm = area
  · rcases h kb hkb hkey.1 hkey.2 with h1 | h1
    · exact Or.inr (Or.inl h1)
    · refine Or.inr (Or.inr ?_)
      rw [hkey.1, hkey.2]
      exact CompareService.recent_deal_none h1
  · exact Or.inl hkey

/-- Claim C8 as stated is false: a pre-existing comparison row survives a
pass over a store holding no appraisal row and no transaction for its key —
the table is upserted, never rewritten. -/
theorem C8_counterexample :
    (CompareService.update_all_comparisons
        ⟨[], [],
          [⟨1, 84, 100, 90, 0, 10, 1⟩]⟩ 1000).1.comparisons =
      [(⟨1, 84, 100, 90, 0, 10, 1⟩ : Models.ComplexComparison)] := by
  rfl

/-- Witness for C8: the frame theorem applied to a store whose only
appraisal row for the key has a null mid. -/
theorem C8_witness :
    ((CompareService.update_all_comparisons
        ⟨[⟨1, 84, none, none, none, 0⟩], [],
          [⟨1, 84, 100, 90, 0, 10, 1⟩]⟩ 1000).1.comparisons.filter
      (CompareService.compKeyIs 1 84)) =
      ([(⟨1, 84, 100, 90, 0, 10, 1⟩ : Models.ComplexComparison)]).filter
        (CompareService.compKeyIs 1 84) :=
  C8_comparison_existence
    ⟨[⟨1, 84, none, none, none, 0⟩], [], [⟨1, 84, 100, 90, 0, 10, 1⟩]⟩
    1000 1 84
    (by
      intro kb hkb h1 h2
      left
      simp only [List.mem_singleton] at hkb
      rw [hkb])

namespace CompareService

open Store Models

/-- The fold of `firstMaxByDate` returns the first row attaining the maximal
deal date among the seed and the traversed rows. -/
theorem foldl_max_spec :
    ∀ (ts : List RealTransaction) (b : RealTransaction),
      ((ts.foldl (fun best x => if best.dealDate < x.dealDate then x else best) b) = b ∨
        (ts.foldl (fun best x => if best.dealDate < x.dealDate then x else best) b) ∈ ts) ∧
      b.dealDate ≤
        (ts.foldl (fun best x => if best.dealDate < x.dealDate then x else best) b).dealDate ∧
      ∀ u ∈ ts, u.dealDate ≤
        (ts.foldl (fun best x => if best.dealDate < x.dealDate then x else best) b).dealDate := by
  intro ts
  induction ts with
  | nil => intro b; exact ⟨Or.inl rfl, le_refl _, by simp⟩
  | cons x ts ih =>
      intro b
      rw [List.foldl_cons]
      rcases ih (if b.dealDate < x.dealDate then x else b) with ⟨hmem, hle, hall⟩
      have hb2 : b.dealDate ≤ (if b.dealDate < x.dealDate then x else b).dealDate := by
        by_cases hlt : b.dealDate < x.dealDate
        · rw [if_pos hlt]; exact le_of_lt hlt
        · rw [if_neg hlt]
      have hx2 : x.dealDate ≤ (if b.dealDate < x.dealDate then x else b).dealDate := by
        by_cases hlt : b.dealDate < x.dealDate
        · rw [if_pos hlt]
        · rw [if_neg hlt]; omega
      refine ⟨?_, le_trans hb2 hle, ?_⟩
      · by_cases hlt : b.dealDate < x.dealDate
        · rw [if_pos hlt] at hmem ⊢
          rcases hmem with hm | hm
          · rw [hm]; exact Or.inr (List.mem_cons_self x ts)
          · exact Or.inr (List.mem_cons_of_mem x hm)
        · rw [if_neg hlt] at hmem ⊢
          rcases hmem with hm | hm
          · exact Or.inl hm
          · exact Or.inr (List.mem_cons_of_mem x hm)
      · intro u hu
        rcases List.mem_cons.mp hu with hu1 | hu1
        · subst hu1; exact le_trans hx2 hle
        · exact hall u hu1

theorem firstMaxByDate_spec {l : List RealTransaction} {t : RealTransaction}
    (h : firstMaxByDate l = some t) :
    t ∈ l ∧ ∀ u ∈ l, u.dealDate ≤ t.dealDate := by
  cases l with
  | nil => cases h
  | cons b ts =>
      unfold firstMaxByDate at h
      injection h with h2
      rcases foldl_max_spec ts b with ⟨hmem, hle, hall⟩
      rw [h2] at hmem hle hall
      constructor
      · rcases hmem with hm | hm
        · exact hm ▸ (by simp)
        · exact List.mem_cons_of_mem b hm
      · intro u hu
        rcases List.mem_cons.mp hu with hu1 | hu1
        · subst hu1; exact hle
        · exact hall u hu1

theorem recent_deal_spec {txs : List RealTransaction} {now cid : Int}
    {area tol : ℚ} {rd : RecentDeal}
    (h : _get_recent_deal txs now cid area tol = some rd) :
    ∃ t ∈ windowTxs txs now cid area tol,
      t.dealPrice = rd.dealPrice ∧ t.dealDate = rd.dealDate ∧
      (∀ u ∈ windowTxs txs now cid area tol, u.dealDate ≤ t.dealDate) ∧
      rd.dealCount = (windowTxs txs now cid area tol).length := by
  unfold _get_recent_deal at h
  split at h
  · cases h
  · rename_i t heq
    injection h with h2
    rcases firstMaxByDate_spec heq with ⟨hmem, hall⟩
    exact ⟨t, hmem, by rw [← h2], by rw [← h2], hall, by rw [← h2]⟩

theorem recent_deal_some {txs : List RealTransaction} {now cid : Int}
    {area tol : ℚ} (h : windowTxs txs now cid area tol ≠ []) :
    ∃ rd : RecentDeal, _get_recent_deal txs now cid area tol = some rd := by
  unfold _get_recent_deal
  cases hw : windowTxs txs now cid area tol with
  | nil => exact absurd hw h
  | cons b ts => exact ⟨_, rfl⟩

/-- One loop iteration at the row's own key leaves exactly one comparison
row for that key, carrying the recent deal and the rounded discount rate. -/
theorem processKbRow_at_key {txs : List RealTransaction} {now : Int}
    {acc : List ComplexComparison × Nat × Nat} {kb : KBPrice} {mid : Int}
    {recent : RecentDeal}
    (hmid : kb.priceMid = some mid)
    (hrec : _get_recent_deal txs now kb.complexId kb.areaSqm 3 = some recent)
    (hfil : acc.1.filter (compKeyIs kb.complexId kb.areaSqm) = [] ∨
      ∃ c0, acc.1.filter (compKeyIs kb.complexId kb.areaSqm) = [c0]) :
    ∃ c, (processKbRow txs now acc kb).1.filter
        (compKeyIs kb.complexId kb.areaSqm) = [c] ∧
      c.kbPriceMid = mid ∧ c.recentDealPrice = recent.dealPrice ∧
      c.recentDealDate = recent.dealDate ∧ c.dealCount3m = recent.dealCount ∧
      c.dealDiscountRate = discountRate mid recent.dealPrice := by
  unfold processKbRow
  split
  · rename_i heq
    rw [hmid] at heq; cases heq
  · rename_i mid2 heq
    rw [hmid] at heq
    injection heq with heq2
    subst heq2
    split
    · rename_i heq3
      rw [hrec] at heq3; cases heq3
    · rename_i rec2 heq3
      rw [hrec] at heq3
      injection heq3 with heq4
      subst heq4
      rcases hfil with hfil | ⟨c0, hfil⟩
      · have hany : ¬ acc.1.any (compKeyIs kb.complexId kb.areaSqm) = true := by
          intro ha
          rcases List.any_eq_true.mp ha with ⟨x, hx, hpx⟩
          have : x ∈ acc.1.filter (compKeyIs kb.complexId kb.areaSqm) :=
            List.mem_filter.mpr ⟨hx, hpx⟩
          rw [hfil] at this
          cases this
        rw [if_neg hany]
        refine ⟨compNewRow kb.complexId kb.areaSqm mid recent
          (discountRate mid recent.dealPrice), ?_, rfl, rfl, rfl, rfl, rfl⟩
        rw [List.filter_append, hfil]
        have hnew : compKeyIs kb.complexId kb.areaSqm
            (compNewRow kb.complexId kb.areaSqm mid recent
              (discountRate mid recent.dealPrice)) = true := by
          simp [compKeyIs, compNewRow]
        simp [hnew]
      · have hany : acc.1.any (compKeyIs kb.complexId kb.areaSqm) = true :=
          KbService.any_of_filter_single hfil
        rw [if_pos hany]
        refine ⟨compUpdate mid recent (discountRate mid recent.dealPrice) c0,
          ?_, rfl, rfl, rfl, rfl, rfl⟩
        exact updateFirst_filter_single
          (fun x => compKeyIs_update mid recent _ kb.complexId kb.areaSqm x) hfil

/-- `roundHalfEven` is the identity on integers. -/
theorem roundHalfEven_intCast (n : ℤ) : roundHalfEven ((n : ℤ) : ℚ) = n := by
  norm_num [roundHalfEven, Int.floor_intCast]

/-- The spec's worked example: mid 250000 against a 230000 deal gives a
discount rate of exactly 8.00. -/
theorem discountRate_example_eval : discountRate 250000 230000 = 8 := by
  unfold discountRate pyRound2
  rw [show (((250000 : ℤ) : ℚ) - ((230000 : ℤ) : ℚ)) / ((250000 : ℤ) : ℚ) * 100 * 100 =
    ((800 : ℤ) : ℚ) from by norm_num]
  rw [roundHalfEven_intCast]
  norm_num

end CompareService

/-- Claim C1, confirmed: for an appraisal row with non-null mid whose
90-day/±3.0 window is non-empty, `update_all_comparisons` leaves exactly one
comparison row for that (complex_id, area_sqm); it carries the deal price of
a most recent window transaction and the discount rate
`(mid - deal) / mid * 100` rounded to 2 decimals.  The hypotheses are the
store's uniqueness constraints on the appraisal and comparison keys and a
nonzero mid (a zero mid would raise `ZeroDivisionError` in the source). -/
theorem C1_comparison_upsert (db : CompareService.CompDB) (now : Int)
    (kb : Models.KBPrice) (mid : Int)
    (hkbU : db.kbPrices.Pairwise
      (fun a b => ¬ (a.complexId = b.complexId ∧ a.areaSqm = b.areaSqm)))
    (hcompU : db.comparisons.filter
        (CompareService.compKeyIs kb.complexId kb.areaSqm) = [] ∨
      ∃ c0, db.comparisons.filter
        (CompareService.compKeyIs kb.complexId kb.areaSqm) = [c0])
    (hkb : kb ∈ db.kbPrices)
    (hmid : kb.priceMid = some mid) (_hmid0 : mid ≠ 0)
    (hex : ∃ t ∈ db.transactions,
      CompareService.txMatches kb.complexId kb.areaSqm 3
        (now - CompareService.RECENT_DEAL_DAYS) t = true) :
    ∃ t c, t ∈ db.transactions ∧
      CompareService.txMatches kb.complexId kb.areaSqm 3
        (now - CompareService.RECENT_DEAL_DAYS) t = true ∧
      (∀ u ∈ db.transactions,
        CompareService.txMatches kb.complexId kb.areaSqm 3
          (now - CompareService.RECENT_DEAL_DAYS) u = true →
        u.dealDate ≤ t.dealDate) ∧
      ((CompareService.update_all_comparisons db now).1.comparisons.filter
        (CompareService.compKeyIs kb.complexId kb.areaSqm)) = [c] ∧
      c.kbPriceMid = mid ∧ c.recentDealPrice = t.dealPrice ∧
      c.dealDiscountRate = CompareService.discountRate mid t.dealPrice := by
  classical
  have hwne : CompareService.windowTxs db.transactions now kb.complexId kb.areaSqm 3 ≠ [] := by
    rcases hex with ⟨t0, ht0, hm0⟩
    exact List.ne_nil_of_mem
      (List.mem_filter.mpr ⟨ht0, hm0⟩)
  rcases CompareService.recent_deal_some hwne with ⟨rd, hrd⟩
  rcases CompareService.recent_deal_spec hrd with ⟨t, htw, htp, htd, hmax, hcnt⟩
  have htmem : t ∈ db.transactions := List.mem_of_mem_filter htw
  have htmatch : CompareService.txMatches kb.complexId kb.areaSqm 3
      (now - CompareService.RECENT_DEAL_DAYS) t = true := List.of_mem_filter htw
  rcases List.append_of_mem hkb with ⟨l1, l2, hsplit⟩
  have hpw := hkbU
  rw [hsplit] at hpw
  rw [List.pairwise_append] at hpw
  rcases hpw with ⟨hpw1, hpw2, hpw3⟩
  have hl1 : ∀ q ∈ l1, ¬ (q.complexId = kb.complexId ∧ q.areaSqm = kb.areaSqm) :=
    fun q hq => hpw3 q hq kb (by simp)
  have hl2 : ∀ q ∈ l2, ¬ (q.complexId = kb.complexId ∧ q.areaSqm = kb.areaSqm) := by
    intro q hq
    have := (List.pairwise_cons.mp hpw2).1 q hq
    exact fun hc => this ⟨hc.1.symm, hc.2.symm⟩
  unfold CompareService.update_all_comparisons
  rw [hsplit, List.foldl_append, List.foldl_cons]
  have hfil1 : ((l1.foldl (CompareService.processKbRow db.transactions now)
      (db.comparisons, 0, 0)).1.filter
        (CompareService.compKeyIs kb.complexId kb.areaSqm)) =
      db.comparisons.filter (CompareService.compKeyIs kb.complexId kb.areaSqm) :=
    CompareService.comp_foldl_filter l1 _ (fun q hq => Or.inl (hl1 q hq))
  have hfil2 : ((l1.foldl (CompareService.processKbRow db.transactions now)
      (db.comparisons, 0, 0)).1.filter
        (CompareService.compKeyIs kb.complexId kb.areaSqm)) = [] ∨
      ∃ c0, ((l1.foldl (CompareService.processKbRow db.transactions now)
        (db.comparisons, 0, 0)).1.filter
          (CompareService.compKeyIs kb.complexId kb.areaSqm)) = [c0] := by
    rw [hfil1]
    exact hcompU
  rcases CompareService.processKbRow_at_key hmid hrd hfil2 with
    ⟨c, hc, hcmid, hcprice, hcdate, hccnt, hcrate⟩
  refine ⟨t, c, htmem, htmatch, ?_, ?_, hcmid, ?_, ?_⟩
  · intro u hu hum
    exact hmax u (List.mem_filter.mpr ⟨hu, hum⟩)
  · rw [CompareService.comp_foldl_filter l2 _ (fun q hq => Or.inl (hl2 q hq))]
    exact hc
  · rw [hcprice, htp]
  · rw [hcrate, htp]

/-- Witness for C1: the spec's own example figures — appraisal mid 250000
against a deal at 230000 inside the window yields one comparison row with
discount rate exactly 8 (8.00). -/
theorem C1_witness :
    (∃ t c, t ∈ ([⟨1, 84, some 5, 230000, 95⟩] : List Models.RealTransaction) ∧
      CompareService.txMatches 1 84 3 (100 - CompareService.RECENT_DEAL_DAYS) t = true ∧
      (∀ u ∈ ([⟨1, 84, some 5, 230000, 95⟩] : List Models.RealTransaction),
        CompareService.txMatches 1 84 3 (100 - CompareService.RECENT_DEAL_DAYS) u = true →
        u.dealDate ≤ t.dealDate) ∧
      ((CompareService.update_all_comparisons
          ⟨[⟨1, 84, some 220000, some 250000, some 270000, 0⟩],
            [⟨1, 84, some 5, 230000, 95⟩], []⟩ 100).1.comparisons.filter
        (CompareService.compKeyIs 1 84)) = [c] ∧
      c.kbPriceMid = 250000 ∧ c.recentDealPrice = t.dealPrice ∧
      c.dealDiscountRate = CompareService.discountRate 250000 t.dealPrice) ∧
    CompareService.discountRate 250000 230000 = 8 := by
  constructor
  · exact C1_comparison_upsert
      ⟨[⟨1, 84, some 220000, some 250000, some 270000, 0⟩],
        [⟨1, 84, some 5, 230000, 95⟩], []⟩ 100
      ⟨1, 84, some 220000, some 250000, some 270000, 0⟩ 250000
      (by simp)
      (Or.inl rfl)
      (by simp)
      rfl
      (by decide)
      ⟨⟨1, 84, some 5, 230000, 95⟩, by simp,
        by
          simp only [CompareService.txMatches, CompareService.RECENT_DEAL_DAYS,
            decide_eq_true_eq]
          norm_num⟩
  · exact CompareService.discountRate_example_eval

/-- Claim C3, code bug: on a source snapshot whose reported deal counts are
accurate, the Incremental Listings Crawl after a Full Listings Crawl indeed
changes no rows — but instead of returning its statistics it raises
`NameError` on the never-assigned local `skipped_small`
(naver_crawler.py:790), so every incremental run that reaches the completion
log fails. -/
theorem C3_incremental_crawl_raises :
    (NaverCrawl.crawl_region NaverCrawl.testOracle 4 ⟨[], [], 1⟩
        "서울특별시".toList "강남구".toList).1.listings.length = 1 ∧
    NaverCrawl.crawl_region_incremental NaverCrawl.testOracle 4
        (NaverCrawl.crawl_region NaverCrawl.testOracle 4 ⟨[], [], 1⟩
          "서울특별시".toList "강남구".toList).1
        "서울특별시".toList "강남구".toList =
      ((NaverCrawl.crawl_region NaverCrawl.testOracle 4 ⟨[], [], 1⟩
          "서울특별시".toList "강남구".toList).1,
       Except.error (NaverCrawl.PyErr.nameError "skipped_small".toList)) :=
  ⟨rfl, rfl⟩

namespace Store

theorem find?_of_filter_single {α : Type} {p : α → Bool} :
    ∀ {l : List α} {a : α}, l.filter p = [a] → l.find? p = some a := by
  intro l
  induction l with
  | nil => intro a h; simp at h
  | cons b t ih =>
      intro a h
      by_cases hp : p b
      · rw [List.filter_cons_of_pos hp] at h
        injection h with hb _
        subst hb
        rw [List.find?_cons_of_pos _ hp]
      · rw [List.filter_cons_of_neg hp] at h
        rw [List.find?_cons_of_neg _ hp]
        exact ih h

theorem updateFirst_length {α : Type} (p : α → Bool) (f : α → α) :
    ∀ l : List α, (updateFirst p f l).length = l.length := by
  intro l
  induction l with
  | nil => rfl
  | cons a t ih =>
      by_cases hp : p a
      · simp [updateFirst, hp]
      · simp [updateFirst, hp, ih]

end Store

/-- Claim C4, corrected: on an existing complex row (keyed by
`naver_complex_no`, unique by hypothesis), `_upsert_complex` never deletes
the row and keeps its id — but it does not leave truthy stored fields alone:
every truthy incoming value wins (the stored value survives only where the
incoming one is falsy), the canonical name included, and `sido`/`sigungu` are
overwritten unconditionally. -/
theorem C4_upsert_complex_overwrite (db : NaverCrawl.CrawlDB)
    (cd : NaverCrawl.NComplexData) (sido sigungu : List Char)
    (c0 : Models.ApartmentComplex)
    (hne : cd.complexNo ≠ [])
    (hfil : db.complexes.filter
        (fun c => c.naverComplexNo = some cd.complexNo) = [c0]) :
    ∃ c1,
      ((NaverCrawl._upsert_complex db cd sido sigungu).1.complexes.filter
        (fun c => c.naverComplexNo = some cd.complexNo)) = [c1] ∧
      c1.id = c0.id ∧
      c1.name = (if cd.complexName ≠ [] then cd.complexName else c0.name) ∧
      c1.address = (if cd.address ≠ [] then some cd.address else c0.address) ∧
      c1.dong = (if cd.cortarAddress ≠ [] then some cd.cortarAddress else c0.dong) ∧
      c1.totalUnits = (if NaverCrawl.truthyInt cd.totalHouseholdCount then
        cd.totalHouseholdCount else c0.totalUnits) ∧
      c1.builtYear = (if NaverCrawl.truthyInt
          (NaverCrawl.parseBuiltYear cd.useApproveYmd) then
        NaverCrawl.parseBuiltYear cd.useApproveYmd else c0.builtYear) ∧
      c1.lat = (if NaverCrawl.truthyQ cd.latitude then cd.latitude else c0.lat) ∧
      c1.lng = (if NaverCrawl.truthyQ cd.longitude then cd.longitude else c0.lng) ∧
      c1.sido = sido ∧ c1.sigungu = sigungu ∧
      (NaverCrawl._upsert_complex db cd sido sigungu).2 = some c0.id ∧
      ((NaverCrawl._upsert_complex db cd sido sigungu).1.complexes.map
        (fun c => c.id)) = db.complexes.map (fun c => c.id) ∧
      (NaverCrawl._upsert_complex db cd sido sigungu).1.listings = db.listings := by
  have hfind : db.complexes.find?
      (fun c => c.naverComplexNo = some cd.complexNo) = some c0 :=
    Store.find?_of_filter_single hfil
  simp only [NaverCrawl._upsert_complex]
  rw [if_neg hne]
  split
  · rename_i existing heq
    rw [hfind] at heq
    injection heq with heq2
    subst heq2
    refine ⟨NaverCrawl.complexUpd cd sido sigungu c0, ?_,
      rfl, rfl, rfl, rfl, rfl, rfl, rfl, rfl, rfl, rfl, rfl, ?_, rfl⟩
    · refine Store.updateFirst_filter_single ?_ hfil
      intro c
      rfl
    · refine Store.updateFirst_map_eq (fun c => c.id) ?_ db.complexes
      intro c
      rfl
  · rename_i heq
    rw [hfind] at heq
    cases heq

/-- Counterexample to C4 as stated: an existing row with name `A` and a
non-null address is upserted with name `B` and a new address; both stored
values are overwritten. -/
theorem C4_counterexample :
    ((NaverCrawl._upsert_complex
        ⟨[{ id := 1, naverComplexNo := some "123".toList, name := "A".toList,
            address := some "addr1".toList, sido := "s".toList,
            sigungu := "g".toList, dong := some "d".toList,
            totalUnits := some 100, builtYear := some 2000, lat := none,
            lng := none, dongCode := none }], [], 2⟩
        { complexNo := "123".toList, complexName := "B".toList, dealCnt := 0,
          totalHouseholdCount := none, useApproveYmd := none, latitude := none,
          longitude := none, cortarAddress := [], address := "addr2".toList }
        "s".toList "g".toList).1.complexes.map (fun c => (c.name, c.address))) =
      [("B".toList, some "addr2".toList)] := by decide

/-- Witness for C4: the amended theorem applied to that same one-row store —
the row survives with its id, the incoming truthy name and address win, and
the stored `totalUnits`/`builtYear` survive the falsy incoming values. -/
theorem C4_witness :
    ∃ c1,
      ((NaverCrawl._upsert_complex
          ⟨[{ id := 1, naverComplexNo := some "123".toList, name := "A".toList,
              address := some "addr1".toList, sido := "s".toList,
              sigungu := "g".toList, dong := some "d".toList,
              totalUnits := some 100, builtYear := some 2000, lat := none,
              lng := none, dongCode := none }], [], 2⟩
          { complexNo := "123".toList, complexName := "B".toList, dealCnt := 0,
            totalHouseholdCount := none, useApproveYmd := none,
            latitude := none, longitude := none, cortarAddress := [],
            address := "addr2".toList }
          "s".toList "g".toList).1.complexes.filter
        (fun c => c.naverComplexNo = some ("123".toList))) = [c1] ∧
      c1.id = 1 ∧
      c1.name = (if "B".toList ≠ ([] : List Char) then "B".toList else "A".toList) ∧
      c1.address = (if "addr2".toList ≠ ([] : List Char) then
        some "addr2".toList else some "addr1".toList) ∧
      c1.dong = (if ([] : List Char) ≠ ([] : List Char) then some ([] : List Char)
        else some "d".toList) ∧
      c1.totalUnits = (if NaverCrawl.truthyInt none then none else some 100) ∧
      c1.builtYear = (if NaverCrawl.truthyInt (NaverCrawl.parseBuiltYear none) then
        NaverCrawl.parseBuiltYear none else some 2000) ∧
      c1.lat = (if NaverCrawl.truthyQ none then none else none) ∧
      c1.lng = (if NaverCrawl.truthyQ none then none else none) ∧
      c1.sido = "s".toList ∧ c1.sigungu = "g".toList ∧
      (NaverCrawl._upsert_complex
          ⟨[{ id := 1, naverComplexNo := some "123".toList, name := "A".toList,
              address := some "addr1".toList, sido := "s".toList,
              sigungu := "g".toList, dong := some "d".toList,
              totalUnits := some 100, builtYear := some 2000, lat := none,
              lng := none, dongCode := none }], [], 2⟩
          { complexNo := "123".toList, complexName := "B".toList, dealCnt := 0,
            totalHouseholdCount := none, useApproveYmd := none,
            latitude := none, longitude := none, cortarAddress := [],
            address := "addr2".toList }
          "s".toList "g".toList).2 = some 1 ∧
      ((NaverCrawl._upsert_complex
          ⟨[{ id := 1, naverComplexNo := some "123".toList, name := "A".toList,
              address := some "addr1".toList, sido := "s".toList,
              sigungu := "g".toList, dong := some "d".toList,
              totalUnits := some 100, builtYear := some 2000, lat := none,
              lng := none, dongCode := none }], [], 2⟩
          { complexNo := "123".toList, complexName := "B".toList, dealCnt := 0,
            totalHouseholdCount := none, useApproveYmd := none,
            latitude := none, longitude := none, cortarAddress := [],
            address := "addr2".toList }
          "s".toList "g".toList).1.complexes.map (fun c => c.id)) = [1] ∧
      (NaverCrawl._upsert_complex
          ⟨[{ id := 1, naverComplexNo := some "123".toList, name := "A".toList,
              address := some "addr1".toList, sido := "s".toList,
              sigungu := "g".toList, dong := some "d".toList,
              totalUnits := some 100, builtYear := some 2000, lat := none,
              lng := none, dongCode := none }], [], 2⟩
          { complexNo := "123".toList, complexName := "B".toList, dealCnt := 0,
            totalHouseholdCount := none, useApproveYmd := none,
            latitude := none, longitude := none, cortarAddress := [],
            address := "addr2".toList }
          "s".toList "g".toList).1.listings = [] :=
  C4_upsert_complex_overwrite
    ⟨[{ id := 1, naverComplexNo := some "123".toList, name := "A".toList,
        address := some "addr1".toList, sido := "s".toList,
        sigungu := "g".toList, dong := some "d".toList,
        totalUnits := some 100, builtYear := some 2000, lat := none,
        lng := none, dongCode := none }], [], 2⟩
    { complexNo := "123".toList, complexName := "B".toList, dealCnt := 0,
      totalHouseholdCount := none, useApproveYmd := none, latitude := none,
      longitude := none, cortarAddress := [], address := "addr2".toList }
    "s".toList "g".toList
    { id := 1, naverComplexNo := some "123".toList, name := "A".toList,
      address := some "addr1".toList, sido := "s".toList,
      sigungu := "g".toList, dong := some "d".toList,
      totalUnits := some 100, builtYear := some 2000, lat := none,
      lng := none, dongCode := none }
    (by decide) (by decide)

namespace TxService

open Store Models

theorem resolveComplex_transactions (sido sigungu : List Char)
    (st : SaveState) (tx : TxData) :
    (resolveComplex sido sigungu st tx).1.db.transactions =
      st.db.transactions := by
  unfold resolveComplex
  split
  · rfl
  · split
    · rfl
    · rfl

theorem _is_duplicate_eq_any (txs : List RealTransaction) (cid : Int)
    (area : ℚ) (floor : Option Int) (dd dp : Int) :
    _is_duplicate txs cid area floor dd dp =
      txs.any (fun r => txFpEq r ⟨cid, area, floor, dp, dd⟩) := rfl

theorem saveTxStep_pairwise {sido sigungu : List Char} {st : SaveState}
    (tx : TxData)
    (h : st.db.transactions.Pairwise (fun a b => txFpEq a b = false)) :
    ((saveTxStep sido sigungu st tx).db.transactions).Pairwise
      (fun a b => txFpEq a b = false) := by
  have htr := resolveComplex_transactions sido sigungu st tx
  unfold saveTxStep dupCheckInsert
  split
  · show ((resolveComplex sido sigungu st tx).1.db.transactions).Pairwise _
    rw [htr]
    exact h
  · rename_i hdup
    show ((resolveComplex sido sigungu st tx).1.db.transactions ++
        [_]).Pairwise _
    rw [htr]
    rw [_is_duplicate_eq_any, htr] at hdup
    rw [List.pairwise_append]
    refine ⟨h, List.pairwise_singleton _ _, ?_⟩
    intro a ha b hb
    rw [List.mem_singleton] at hb
    subst hb
    rcases Bool.eq_false_or_eq_true
        (txFpEq a ⟨(resolveComplex sido sigungu st tx).2, tx.areaSqm,
          tx.floor, tx.dealPrice, tx.dealDate⟩) with ht | hf
    · exact absurd (List.any_eq_true.mpr ⟨a, ha, ht⟩) hdup
    · exact hf

theorem save_foldl_pairwise (sido sigungu : List Char) :
    ∀ (items : List TxData) (st : SaveState),
      st.db.transactions.Pairwise (fun a b => txFpEq a b = false) →
      ((items.foldl (saveTxStep sido sigungu) st).db.transactions).Pairwise
        (fun a b => txFpEq a b = false) := by
  intro items
  induction items with
  | nil => intro st h; exact h
  | cons tx rest ih =>
      intro st h
      rw [List.foldl_cons]
      exact ih _ (saveTxStep_pairwise tx h)

end TxService

/-- Claim C5, confirmed: fingerprint uniqueness (complex, area, floor,
deal_date, deal_price; nulls-equal on floor) is an invariant of
`save_transactions` — a store with pairwise-distinct fingerprints keeps them
pairwise distinct under any call — and re-saving a single already-stored
item against a matched complex inserts nothing, leaving the store unchanged
with counters (saved, duplicates, created) = (0, 1, 0). -/
theorem C5_duplicate_suppression (db : TxService.TxDB)
    (items : List TxService.TxData) (sido sigungu : List Char)
    (hinv : db.transactions.Pairwise
      (fun a b => TxService.txFpEq a b = false)) :
    ((TxService.save_transactions db items sido sigungu).1.transactions).Pairwise
      (fun a b => TxService.txFpEq a b = false) ∧
    (∀ tx cid, items = [tx] →
      TxService._match_complex db.complexes tx.aptName sido sigungu = some cid →
      TxService._is_duplicate db.transactions cid tx.areaSqm tx.floor
        tx.dealDate tx.dealPrice = true →
      TxService.save_transactions db items sido sigungu = (db, 0, 1, 0)) := by
  constructor
  · exact TxService.save_foldl_pairwise sido sigungu items
      ⟨db, [], 0, 0, 0⟩ hinv
  · intro tx cid hitems hmatch hdup
    subst hitems
    have hres : TxService.resolveComplex sido sigungu
        ⟨db, [], 0, 0, 0⟩ tx =
        (⟨db, [(tx.aptName, cid)], 0, 0, 0⟩, cid) := by
      unfold TxService.resolveComplex
      rw [show (List.find? (fun p => p.1 = tx.aptName)
          ([] : List (List Char × Int))) = none from rfl]
      rw [hmatch]
      rfl
    unfold TxService.save_transactions
    rw [List.foldl_cons, List.foldl_nil]
    unfold TxService.saveTxStep
    rw [hres]
    unfold TxService.dupCheckInsert
    rw [if_pos hdup]

/-- Witness for C5: a one-transaction store re-fed the same record keeps its
single row per fingerprint and counts one duplicate, inserting nothing. -/
theorem C5_witness :
    ((TxService.save_transactions
        ⟨[{ id := 1, naverComplexNo := none, name := "에이".toList,
            address := none, sido := "서울특별시".toList,
            sigungu := "강남구".toList, dong := some "역삼동".toList,
            totalUnits := none, builtYear := none, lat := none, lng := none,
            dongCode := none }],
          [⟨1, 84, some 5, 230000, 95⟩], 2⟩
        [{ aptName := "에이".toList, areaSqm := 84, floor := some 5,
           dealPrice := 230000, dealDate := 95, umdName := "역삼동".toList,
           buildYear := none }]
        "서울특별시".toList "강남구".toList).1.transactions).Pairwise
      (fun a b => TxService.txFpEq a b = false) ∧
    TxService.save_transactions
        ⟨[{ id := 1, naverComplexNo := none, name := "에이".toList,
            address := none, sido := "서울특별시".toList,
            sigungu := "강남구".toList, dong := some "역삼동".toList,
            totalUnits := none, builtYear := none, lat := none, lng := none,
            dongCode := none }],
          [⟨1, 84, some 5, 230000, 95⟩], 2⟩
        [{ aptName := "에이".toList, areaSqm := 84, floor := some 5,
           dealPrice := 230000, dealDate := 95, umdName := "역삼동".toList,
           buildYear := none }]
        "서울특별시".toList "강남구".toList =
      (⟨[{ id := 1, naverComplexNo := none, name := "에이".toList,
           address := none, sido := "서울특별시".toList,
           sigungu := "강남구".toList, dong := some "역삼동".toList,
           totalUnits := none, builtYear := none, lat := none, lng := none,
           dongCode := none }],
         [⟨1, 84, some 5, 230000, 95⟩], 2⟩, 0, 1, 0) := by
  have hmain := C5_duplicate_suppression
    ⟨[{ id := 1, naverComplexNo := none, name := "에이".toList,
        address := none, sido := "서울특별시".toList,
        sigungu := "강남구".toList, dong := some "역삼동".toList,
        totalUnits := none, builtYear := none, lat := none, lng := none,
        dongCode := none }],
      [⟨1, 84, some 5, 230000, 95⟩], 2⟩
    [{ aptName := "에이".toList, areaSqm := 84, floor := some 5,
       dealPrice := 230000, dealDate := 95, umdName := "역삼동".toList,
       buildYear := none }]
    "서울특별시".toList "강남구".toList
    (by decide)
  exact ⟨hmain.1,
    hmain.2 ⟨"에이".toList, 84, some 5, 230000, 95, "역삼동".toList, none⟩
      1 rfl (by decide) (by decide)⟩

namespace Store

theorem mem_updateFirst_keyed {α β : Type} [DecidableEq α] (dc : α)
    (f : α × β → α × β) :
    ∀ (l : List (α × β)), (l.map Prod.fst).Nodup →
      ∀ x ∈ updateFirst (fun g => g.1 = dc) f l,
        (x ∈ l ∧ x.1 ≠ dc) ∨ ∃ y, y ∈ l ∧ y.1 = dc ∧ x = f y := by
  intro l
  induction l with
  | nil => intro _ x hx; cases hx
  | cons a t ih =>
      intro hnd x hx
      rw [List.map_cons, List.nodup_cons] at hnd
      by_cases hpa : a.1 = dc
      · rw [show updateFirst (fun g => g.1 = dc) f (a :: t) =
            f a :: t from by simp [updateFirst, hpa]] at hx
        rcases List.mem_cons.mp hx with hx1 | hx1
        · exact Or.inr ⟨a, List.mem_cons_self a t, hpa, hx1⟩
        · refine Or.inl ⟨List.mem_cons_of_mem a hx1, ?_⟩
          intro hxdc
          apply hnd.1
          rw [hpa, ← hxdc]
          exact List.mem_map_of_mem Prod.fst hx1
      · rw [show updateFirst (fun g => g.1 = dc) f (a :: t) =
            a :: updateFirst (fun g => g.1 = dc) f t from by
              simp [updateFirst, hpa]] at hx
        rcases List.mem_cons.mp hx with hx1 | hx1
        · subst hx1
          exact Or.inl ⟨List.mem_cons_self _ _, hpa⟩
        · rcases ih hnd.2 x hx1 with ⟨hm, hne⟩ | ⟨y, hy, hydc, hxy⟩
          · exact Or.inl ⟨List.mem_cons_of_mem a hm, hne⟩
          · exact Or.inr ⟨y, List.mem_cons_of_mem a hy, hydc, hxy⟩

end Store

namespace KbParallel

open Store Models

theorem groupByDong_append (t : List ApartmentComplex)
    (c : ApartmentComplex) :
    groupByDong (t ++ [c]) =
      (match c.dongCode with
       | none => groupByDong t
       | some dc =>
           if (groupByDong t).any (fun g => g.1 = dc) then
             updateFirst (fun g => g.1 = dc)
               (fun g => (g.1, g.2 ++ [c])) (groupByDong t)
           else groupByDong t ++ [(dc, [c])]) := by
  unfold groupByDong
  rw [List.foldl_append, List.foldl_cons, List.foldl_nil]

theorem any_key_eq_map {β : Type} (L : List (List Char × β)) (d : List Char) :
    L.any (fun g => g.1 = d) = (L.map Prod.fst).any (fun k => k = d) := by
  induction L with
  | nil => rfl
  | cons a t ih => simp [List.any_cons, ih]

theorem filter_code_singleton_ne (c : ApartmentComplex) (dc d : List Char)
    (hdc : c.dongCode = some dc) (hne : dc ≠ d) :
    List.filter (fun c' => (c'.dongCode = some d : Bool)) [c] = [] := by
  rw [List.filter_cons]
  rw [show (c.dongCode = some d : Bool) = false from by
    rw [hdc]
    exact decide_eq_false (fun h => hne (Option.some.inj h))]
  rfl

theorem filter_code_singleton_none (c : ApartmentComplex) (d : List Char)
    (hdc : c.dongCode = none) :
    List.filter (fun c' => (c'.dongCode = some d : Bool)) [c] = [] := by
  rw [List.filter_cons]
  rw [show (c.dongCode = some d : Bool) = false from by
    rw [hdc]
    exact decide_eq_false (fun h => Option.noConfusion h)]
  rfl

theorem filter_code_singleton_eq (c : ApartmentComplex) (dc : List Char)
    (hdc : c.dongCode = some dc) :
    List.filter (fun c' => (c'.dongCode = some dc : Bool)) [c] = [c] := by
  rw [List.filter_cons]
  rw [show (c.dongCode = some dc : Bool) = true from by
    rw [hdc]
    exact decide_eq_true rfl]
  rfl

theorem groupByDong_spec :
    ∀ l : List ApartmentComplex,
      (∀ p ∈ groupByDong l,
        p.2 = l.filter (fun c => c.dongCode = some p.1)) ∧
      ((groupByDong l).map Prod.fst).Nodup ∧
      (∀ dc, ((groupByDong l).any (fun g => g.1 = dc)) = false →
        l.filter (fun c => c.dongCode = some dc) = []) := by
  intro l
  induction l using List.reverseRecOn with
  | nil =>
      refine ⟨?_, by simp [groupByDong], ?_⟩
      · intro p hp
        simp [groupByDong] at hp
      · intro dc _
        rfl
  | append_singleton t c ih =>
      obtain ⟨ih1, ih2, ih3⟩ := ih
      cases hdc : c.dongCode with
      | none =>
          simp only [groupByDong_append, hdc]
          refine ⟨?_, ih2, ?_⟩
          · intro p hp
            rw [List.filter_append, ih1 p hp,
              filter_code_singleton_none c p.1 hdc, List.append_nil]
          · intro dc h
            rw [List.filter_append, ih3 dc h,
              filter_code_singleton_none c dc hdc]
            rfl
      | some dc =>
          simp only [groupByDong_append, hdc]
          by_cases hany : (groupByDong t).any (fun g => g.1 = dc) = true
          · rw [if_pos hany]
            have hkeys : (updateFirst (fun g => g.1 = dc)
                (fun g => (g.1, g.2 ++ [c])) (groupByDong t)).map Prod.fst =
                (groupByDong t).map Prod.fst := by
              refine updateFirst_map_eq Prod.fst ?_ (groupByDong t)
              intro g
              rfl
            refine ⟨?_, by rw [hkeys]; exact ih2, ?_⟩
            · intro p hp
              rcases mem_updateFirst_keyed dc _ (groupByDong t) ih2 p hp with
                ⟨hm, hne⟩ | ⟨y, hy, hydc, hxy⟩
              · rw [List.filter_append, ih1 p hm,
                  filter_code_singleton_ne c dc p.1 hdc (Ne.symm hne),
                  List.append_nil]
              · subst hxy
                show y.2 ++ [c] = _
                rw [List.filter_append, ih1 y hy,
                  filter_code_singleton_eq c y.1 (by rw [hdc, hydc])]
            · intro dc' h
              rw [any_key_eq_map, hkeys, ← any_key_eq_map] at h
              rw [List.filter_append, ih3 dc' h]
              have hne : dc ≠ dc' := by
                intro he
                subst he
                rw [hany] at h
                cases h
              rw [filter_code_singleton_ne c dc dc' hdc hne]
              rfl
          · rw [if_neg hany]
            rw [Bool.not_eq_true] at hany
            have hdcnot : dc ∉ (groupByDong t).map Prod.fst := by
              intro hmem
              rcases List.mem_map.mp hmem with ⟨y, hy, hy1⟩
              have : (groupByDong t).any (fun g => g.1 = dc) = true :=
                List.any_eq_true.mpr ⟨y, hy, by simp [hy1]⟩
              rw [this] at hany
              cases hany
            refine ⟨?_, ?_, ?_⟩
            · intro p hp
              rcases List.mem_append.mp hp with hp1 | hp1
              · have hne : p.1 ≠ dc := by
                  intro he
                  have : (groupByDong t).any (fun g => g.1 = dc) = true :=
                    List.any_eq_true.mpr ⟨p, hp1, by simp [he]⟩
                  rw [this] at hany
                  cases hany
                rw [List.filter_append, ih1 p hp1,
                  filter_code_singleton_ne c dc p.1 hdc (Ne.symm hne),
                  List.append_nil]
              · rw [List.mem_singleton] at hp1
                subst hp1
                show [c] = _
                rw [List.filter_append, ih3 dc hany,
                  filter_code_singleton_eq c dc hdc]
                rfl
            · rw [List.map_append]
              refine List.Nodup.append ih2 (List.nodup_singleton dc) ?_
              intro a ha hb
              simp only [List.map_cons, List.map_nil, List.mem_singleton] at hb
              subst hb
              exact hdcnot ha
            · intro dc' h
              rw [List.any_append, Bool.or_eq_false_iff] at h
              obtain ⟨h1, h2⟩ := h
              have hne : dc ≠ dc' := by
                intro he
                simp [he] at h2
              rw [List.filter_append, ih3 dc' h1,
                filter_code_singleton_ne c dc dc' hdc hne]
              rfl

theorem processGroupComplex_listCalls (o : KBOracle)
    (kb : List KBComplexRec) (now : Int) (acc : GroupResult)
    (c : ApartmentComplex) :
    (processGroupComplex o kb now acc c).listCalls = acc.listCalls := by
  simp only [processGroupComplex]
  split
  · rfl
  · split
    · rfl
    · rfl

theorem processGroup_foldl_listCalls (o : KBOracle)
    (kb : List KBComplexRec) (now : Int) :
    ∀ (cs : List ApartmentComplex) (acc : GroupResult),
      (cs.foldl (processGroupComplex o kb now) acc).listCalls =
        acc.listCalls := by
  intro cs
  induction cs with
  | nil => intro acc; rfl
  | cons c t ih =>
      intro acc
      rw [List.foldl_cons, ih, processGroupComplex_listCalls]

theorem processGroupComplex_priceCalls (o : KBOracle)
    (kb : List KBComplexRec) (now : Int) (acc : GroupResult)
    (c : ApartmentComplex) :
    (processGroupComplex o kb now acc c).priceCalls =
      acc.priceCalls ++
        ((match_from_list c.name kb c.dong).map (fun m => m.kbId)).toList := by
  simp only [processGroupComplex]
  split
  · rename_i heq
    simp [heq]
  · rename_i m heq
    split
    · simp [heq]
    · simp [heq]

theorem processGroup_foldl_priceCalls (o : KBOracle)
    (kb : List KBComplexRec) (now : Int) :
    ∀ (cs : List ApartmentComplex) (acc : GroupResult),
      (cs.foldl (processGroupComplex o kb now) acc).priceCalls =
        acc.priceCalls ++ cs.filterMap (fun c =>
          (match_from_list c.name kb c.dong).map (fun m => m.kbId)) := by
  intro cs
  induction cs with
  | nil => intro acc; simp
  | cons c t ih =>
      intro acc
      rw [List.foldl_cons, ih, processGroupComplex_priceCalls,
        List.filterMap_cons]
      cases hm : match_from_list c.name kb c.dong with
      | none => simp
      | some m => simp

theorem _process_dong_group_listCalls (o : KBOracle) (dc : List Char)
    (cs : List ApartmentComplex) (db0 : List KBPrice) (now : Int) :
    (_process_dong_group o dc cs db0 now).listCalls = 1 := by
  simp only [_process_dong_group]
  split
  · rfl
  · rw [processGroup_foldl_listCalls]

theorem _process_dong_group_priceCalls (o : KBOracle) (dc : List Char)
    (cs : List ApartmentComplex) (db : List KBPrice) (now : Int)
    (h : ¬ o.complexList dc = []) :
    (_process_dong_group o dc cs db now).priceCalls =
      cs.filterMap (fun c =>
        (match_from_list c.name (o.complexList dc) c.dong).map
          (fun m => m.kbId)) := by
  simp only [_process_dong_group]
  rw [if_neg h, processGroup_foldl_priceCalls]
  rfl

theorem processGroupComplex_db_upsert (o : KBOracle)
    (kb : List KBComplexRec) (now : Int) (acc : GroupResult)
    (c : ApartmentComplex) (m : KBComplexRec)
    (hm : match_from_list c.name kb c.dong = some m)
    (hp : ¬ o.allPrices m.kbId = []) :
    (processGroupComplex o kb now acc c).db =
      (KbService._upsert_kb_prices acc.db c.id (o.allPrices m.kbId) now).1 := by
  simp only [processGroupComplex]
  split
  · rename_i heq
    rw [hm] at heq
    cases heq
  · rename_i m2 heq
    rw [hm] at heq
    injection heq with h2
    subst h2
    rw [if_neg hp]

theorem runningCount_cons (p : Phase) (t : List Phase) :
    runningCount (p :: t) =
      (if p = Phase.running then 1 else 0) + runningCount t := by
  by_cases hp : p = Phase.running
  · simp [runningCount, List.filter_cons, hp]
    omega
  · simp [runningCount, List.filter_cons, hp]

theorem runningCount_set_acquire :
    ∀ (ph : List Phase) (i : Nat), ph.get? i = some Phase.waiting →
      runningCount (ph.set i Phase.running) = runningCount ph + 1 := by
  intro ph
  induction ph with
  | nil => intro i h; cases h
  | cons p t ih =>
      intro i h
      cases i with
      | zero =>
          rw [List.get?_cons_zero] at h
          injection h with h0
          subst h0
          rw [List.set_cons_zero, runningCount_cons, runningCount_cons]
          rw [show (if Phase.running = Phase.running then 1 else 0) = 1 from rfl,
              show (if Phase.waiting = Phase.running then 1 else 0) = 0 from rfl]
          omega
      | succ j =>
          rw [List.get?_cons_succ] at h
          rw [List.set_cons_succ, runningCount_cons, runningCount_cons, ih j h]
          omega

theorem runningCount_set_done :
    ∀ (ph : List Phase) (i : Nat),
      runningCount (ph.set i Phase.done) ≤ runningCount ph := by
  intro ph
  induction ph with
  | nil => intro i; exact Nat.le_refl _
  | cons p t ih =>
      intro i
      cases i with
      | zero =>
          rw [List.set_cons_zero, runningCount_cons, runningCount_cons]
          have : (if Phase.done = Phase.running then 1 else 0) = 0 := by decide
          rw [this]
          omega
      | succ j =>
          rw [List.set_cons_succ, runningCount_cons, runningCount_cons]
          have := ih j
          omega

theorem runningCount_replicate_waiting (k : Nat) :
    runningCount (List.replicate k Phase.waiting) = 0 := by
  induction k with
  | zero => rfl
  | succ j ihk =>
      rw [List.replicate_succ, runningCount_cons, ihk]
      simp

theorem semStep_bound {n : Nat} {b c : List Phase} (hstep : SemStep n b c)
    (hb : runningCount b ≤ n) : runningCount c ≤ n := by
  cases hstep
  · rename_i i hi hn
    rw [runningCount_set_acquire _ i hi]
    omega
  · rename_i i hi
    exact Nat.le_trans (runningCount_set_done _ i) hb

theorem semReachable_bound (n k : Nat) :
    ∀ ph, semReachable n k ph → runningCount ph ≤ n := by
  intro ph h
  unfold semReachable at h
  induction h with
  | refl =>
      rw [runningCount_replicate_waiting]
      exact Nat.zero_le n
  | tail hsteps hstep ih =>
      exact semStep_bound hstep ih

end KbParallel

/-- Claim C2, confirmed (spec-modelled matcher): per dong group the worker
issues exactly one complex-list call; the grouping of
`update_kb_prices_parallel` partitions the complexes with a non-null
dong_code exactly by that code (distinct keys, each group the stored-order
sublist with that code); with a non-empty KB list the worker's
get_all_prices calls are exactly the ids matched from that one list, and a
match with a non-empty price reply is upserted into KBPrice via
`_upsert_kb_prices`; the semaphore keeps at most `n` groups in flight, with
default concurrency 5. -/
theorem C2_parallel_group_collection (oracle : KbParallel.KBOracle)
    (complexes : List Models.ApartmentComplex) (_db : List Models.KBPrice)
    (now : Int) :
    (∀ dongCode cs db0,
      (KbParallel._process_dong_group oracle dongCode cs db0 now).listCalls
        = 1) ∧
    (∀ p ∈ KbParallel.groupByDong
        (complexes.filter (fun c => c.dongCode.isSome)),
      p.2 = (complexes.filter (fun c => c.dongCode.isSome)).filter
        (fun c => c.dongCode = some p.1)) ∧
    ((KbParallel.groupByDong
        (complexes.filter (fun c => c.dongCode.isSome))).map Prod.fst).Nodup ∧
    (∀ dongCode cs db0, ¬ oracle.complexList dongCode = [] →
      (KbParallel._process_dong_group oracle dongCode cs db0 now).priceCalls =
        cs.filterMap (fun c =>
          (KbParallel.match_from_list c.name (oracle.complexList dongCode)
            c.dong).map (fun m => m.kbId))) ∧
    (∀ acc c m kb,
      KbParallel.match_from_list
        (Models.ApartmentComplex.name c) kb c.dong = some m →
      ¬ oracle.allPrices m.kbId = [] →
      (KbParallel.processGroupComplex oracle kb now acc c).db =
        (KbService._upsert_kb_prices acc.db c.id
          (oracle.allPrices m.kbId) now).1) ∧
    (∀ n k ph, KbParallel.semReachable n k ph →
      KbParallel.runningCount ph ≤ n) ∧
    KbParallel.DEFAULT_CONCURRENCY = 5 := by
  refine ⟨?_, ?_, ?_, ?_, ?_, ?_, rfl⟩
  · intro dongCode cs db0
    exact KbParallel._process_dong_group_listCalls oracle dongCode cs db0 now
  · exact (KbParallel.groupByDong_spec _).1
  · exact (KbParallel.groupByDong_spec _).2.1
  · intro dongCode cs db0 h
    exact KbParallel._process_dong_group_priceCalls oracle dongCode cs db0 now h
  · intro acc c m kb hm hp
    exact KbParallel.processGroupComplex_db_upsert oracle kb now acc c m hm hp
  · intro n k ph h
    exact KbParallel.semReachable_bound n k ph h

/-- Witness for C2: one complex in one dong group — the worker issues one
list call, one price call (for the matched KB id 77), the grouping is the
exact one-key partition, a reachable semaphore state stays within the
default bound, and the default concurrency is 5. -/
theorem C2_witness :
    (KbParallel._process_dong_group (⟨fun _ => [⟨"래미안".toList, 77⟩],
        fun _ => [⟨some 84, some 1000, none, some 3000⟩]⟩ : KbParallel.KBOracle)
      "1111010100".toList [(⟨1, none, "래미안".toList, none, [], [], none, none, none, none, none,
        some "1111010100".toList⟩ : Models.ApartmentComplex)] [] 0).listCalls = 1 ∧
    ([(⟨1, none, "래미안".toList, none, [], [], none, none, none, none, none,
        some "1111010100".toList⟩ : Models.ApartmentComplex)] : List Models.ApartmentComplex) =
      (([(⟨1, none, "래미안".toList, none, [], [], none, none, none, none, none,
        some "1111010100".toList⟩ : Models.ApartmentComplex)] : List Models.ApartmentComplex).filter
          (fun c => c.dongCode.isSome)).filter
        (fun c => c.dongCode = some ("1111010100".toList)) ∧
    ((KbParallel.groupByDong
        (([(⟨1, none, "래미안".toList, none, [], [], none, none, none, none, none,
        some "1111010100".toList⟩ : Models.ApartmentComplex)] : List Models.ApartmentComplex).filter
          (fun c => c.dongCode.isSome))).map Prod.fst).Nodup ∧
    (KbParallel._process_dong_group (⟨fun _ => [⟨"래미안".toList, 77⟩],
        fun _ => [⟨some 84, some 1000, none, some 3000⟩]⟩ : KbParallel.KBOracle)
        "1111010100".toList [(⟨1, none, "래미안".toList, none, [], [], none, none, none, none, none,
        some "1111010100".toList⟩ : Models.ApartmentComplex)] [] 0).priceCalls =
      ([(⟨1, none, "래미안".toList, none, [], [], none, none, none, none, none,
        some "1111010100".toList⟩ : Models.ApartmentComplex)] : List Models.ApartmentComplex).filterMap (fun c =>
        (KbParallel.match_from_list c.name
          ((⟨fun _ => [⟨"래미안".toList, 77⟩],
        fun _ => [⟨some 84, some 1000, none, some 3000⟩]⟩ : KbParallel.KBOracle).complexList "1111010100".toList)
          c.dong).map (fun m => m.kbId)) ∧
    (KbParallel.processGroupComplex (⟨fun _ => [⟨"래미안".toList, 77⟩],
        fun _ => [⟨some 84, some 1000, none, some 3000⟩]⟩ : KbParallel.KBOracle)
        [⟨"래미안".toList, 77⟩] 0 ⟨[], ⟨0, 0, 0⟩, 1, []⟩ (⟨1, none, "래미안".toList, none, [], [], none, none, none, none, none,
        some "1111010100".toList⟩ : Models.ApartmentComplex)).db =
      (KbService._upsert_kb_prices [] 1
        ((⟨fun _ => [⟨"래미안".toList, 77⟩],
        fun _ => [⟨some 84, some 1000, none, some 3000⟩]⟩ : KbParallel.KBOracle).allPrices 77) 0).1 ∧
    KbParallel.runningCount
      ((List.replicate 2 KbParallel.Phase.waiting).set 0
        KbParallel.Phase.running) ≤ 5 ∧
    KbParallel.DEFAULT_CONCURRENCY = 5 := by
  have hthm := C2_parallel_group_collection (⟨fun _ => [⟨"래미안".toList, 77⟩],
        fun _ => [⟨some 84, some 1000, none, some 3000⟩]⟩ : KbParallel.KBOracle)
    [(⟨1, none, "래미안".toList, none, [], [], none, none, none, none, none,
        some "1111010100".toList⟩ : Models.ApartmentComplex)] [] 0
  refine ⟨hthm.1 "1111010100".toList [(⟨1, none, "래미안".toList, none, [], [], none, none, none, none, none,
        some "1111010100".toList⟩ : Models.ApartmentComplex)] [], ?_, hthm.2.2.1, ?_, ?_, ?_,
    hthm.2.2.2.2.2.2⟩
  · exact hthm.2.1 ("1111010100".toList, [(⟨1, none, "래미안".toList, none, [], [], none, none, none, none, none,
        some "1111010100".toList⟩ : Models.ApartmentComplex)]) (by decide)
  · exact hthm.2.2.2.1 "1111010100".toList [(⟨1, none, "래미안".toList, none, [], [], none, none, none, none, none,
        some "1111010100".toList⟩ : Models.ApartmentComplex)] [] (by decide)
  · exact hthm.2.2.2.2.1 ⟨[], ⟨0, 0, 0⟩, 1, []⟩ (⟨1, none, "래미안".toList, none, [], [], none, none, none, none, none,
        some "1111010100".toList⟩ : Models.ApartmentComplex)
      ⟨"래미안".toList, 77⟩ [⟨"래미안".toList, 77⟩] (by decide) (by decide)
  · exact hthm.2.2.2.2.2.1 5 2 _
      (Relation.ReflTransGen.single
        (KbParallel.SemStep.acquire 0 (List.replicate 2 KbParallel.Phase.waiting)
          rfl (by decide)))
